import Mathlib

/-!
Verification development for the Coverage dual control loop
(src/server-python/services/ask_loop.py and edit_loop.py).

The Python code is shallowly embedded: pure helpers become Lean functions,
the two loop bodies become step functions over explicit state records, and
every external collaborator call (model invocation, knowledge store query)
is an oracle field of an environment record, so theorems quantify over all
collaborator behaviours.  Events emitted via the `emit` callback are
modelled as an explicit event list returned by each step.
-/

namespace Coverage

/-- A single quote character, kept out of string literals. -/
def apos : String := String.singleton (Char.ofNat 39)

/-- Python `a or b` for an optional string where `None` and the empty
string are falsy. -/
def pyOrS (a : Option String) (b : String) : String :=
  match a with
  | some s => if s = "" then b else s
  | none => b

/-- ASCII whitespace stripped by `str.strip`. -/
def pyWs (c : Char) : Bool :=
  c = ' ' || c = '\t' || c = '\n' || c = '\r' || c = '\x0b' || c = '\x0c'

/-- `str.strip()` (kernel-reducible form). -/
def pyStrip (s : String) : String :=
  String.mk (((s.toList.dropWhile pyWs).reverse.dropWhile pyWs).reverse)

/-- `str.startswith(pre)` (kernel-reducible form). -/
def pyStartsWith (s pre : String) : Bool :=
  pre.toList.isPrefixOf s.toList

/-- Lower-case one ASCII character. -/
def charLower (c : Char) : Char :=
  if 'A' ≤ c ∧ c ≤ 'Z' then Char.ofNat (c.toNat + 32) else c

/-- Lower-case a string character by character (models `str.lower`). -/
def pyLower (s : String) : String := String.mk (s.toList.map charLower)

/-- Substring containment on character lists. -/
def subElem (needle : List Char) : List Char → Bool
  | [] => needle.isEmpty
  | c :: rest => needle.isPrefixOf (c :: rest) || subElem needle rest

/-- `needle in hay` on strings (models Python `in`). -/
def strContainsSub (hay needle : String) : Bool :=
  subElem needle.toList hay.toList

/-- `_dedupe_preserve_order` from ask_loop.py, with the `seen` set made
explicit. -/
def dedupeAux (seen : List String) : List String → List String
  | [] => []
  | x :: xs => if x ∈ seen then dedupeAux seen xs else x :: dedupeAux (x :: seen) xs

/-- First-seen-order deduplication (ask_loop.py `_dedupe_preserve_order`). -/
def dedupePreserveOrder (items : List String) : List String :=
  dedupeAux [] items

/-! ## Python value model

The loops handle untyped model output (`Any`).  `PyVal` models the Python
values that can flow through the coercion helpers. -/

inductive PyVal where
  | pynone
  | str (s : String)
  | int (n : Int)
  | bool (b : Bool)
  | list (xs : List PyVal)
  | dict (fs : List (String × PyVal))

/-- Structural boolean equality on `PyVal`. -/
def pyBeq : PyVal → PyVal → Bool
  | .pynone, .pynone => true
  | .str a, .str b => a == b
  | .int a, .int b => a == b
  | .bool a, .bool b => a == b
  | .list a, .list b =>
    let rec goL : List PyVal → List PyVal → Bool
      | [], [] => true
      | x :: xs, y :: ys => pyBeq x y && goL xs ys
      | _, _ => false
    goL a b
  | .dict a, .dict b =>
    let rec goF : List (String × PyVal) → List (String × PyVal) → Bool
      | [], [] => true
      | (k, x) :: xs, (l, y) :: ys => k == l && pyBeq x y && goF xs ys
      | _, _ => false
    goF a b
  | _, _ => false

/-- Python truthiness for the modelled values. -/
def pyTruthy : PyVal → Bool
  | .pynone => false
  | .str s => s ≠ ""
  | .int n => n ≠ 0
  | .bool b => b
  | .list xs => !xs.isEmpty
  | .dict fs => !fs.isEmpty

/-- `d.get(k)` on a dict value; `none` for a missing key or a non-dict. -/
def pyGet (d : PyVal) (k : String) : Option PyVal :=
  match d with
  | .dict fs => (fs.find? (fun p => p.1 == k)).map (·.2)
  | _ => none

/-- `d.get(k, default)`. -/
def pyGetD (d : PyVal) (k : String) (dflt : PyVal) : PyVal :=
  (pyGet d k).getD dflt

/-- `d.get(k, [])` followed by list iteration: the entries when the value
is a list, `[]` otherwise. -/
def pyGetList (d : PyVal) (k : String) : List PyVal :=
  match pyGet d k with
  | some (.list xs) => xs
  | _ => []

/-- Python `str(x)` on the modelled values (container rendering follows
`repr`, which no claim inspects). -/
def pyStrV : PyVal → String
  | .pynone => "None"
  | .str s => s
  | .int n => toString n
  | .bool b => if b then "True" else "False"
  | .list xs =>
    let rec goL : List PyVal → String
      | [] => ""
      | [x] => pyStrV x
      | x :: xs => pyStrV x ++ ", " ++ goL xs
    "[" ++ goL xs ++ "]"
  | .dict fs =>
    let rec goF : List (String × PyVal) → String
      | [] => ""
      | [(k, x)] => apos ++ k ++ apos ++ ": " ++ pyStrV x
      | (k, x) :: xs => apos ++ k ++ apos ++ ": " ++ pyStrV x ++ ", " ++ goF xs
    "\x7b" ++ goF fs ++ "\x7d"

/-- Python `a or b` where `a` is an optional value (`None` falsy). -/
def pyOrVal (a : Option PyVal) (b : PyVal) : PyVal :=
  match a with
  | some v => if pyTruthy v then v else b
  | none => b

/-! ## Minimal JSON model

`json.loads` is external library code; it is modelled by a small strict
parser over the JSON fragment the loops exchange (objects, arrays,
strings without escapes, integers, literals).  The parser rejects
leading or trailing noise, like `json.loads`. -/

inductive JVal where
  | null
  | bool (b : Bool)
  | num (n : Int)
  | str (s : String)
  | arr (xs : List JVal)
  | obj (fs : List (String × JVal))

def jsonWsChars : List Char := [' ', '\n', '\t', '\r']

def skipWs : List Char → List Char
  | [] => []
  | c :: rest => if c ∈ jsonWsChars then skipWs rest else c :: rest

/-- Parse a JSON string body after the opening quote; no escapes. -/
def parseStrBody : List Char → Option (String × List Char)
  | [] => none
  | c :: rest =>
    if c = '"' then some ("", rest)
    else if c = '\\' then none
    else match parseStrBody rest with
      | some (s, r) => some (String.singleton c ++ s, r)
      | none => none

def digitVal (c : Char) : Option Nat :=
  if ('0' ≤ c ∧ c ≤ '9') then some (c.toNat - '0'.toNat) else none

def parseDigits (acc : Nat) : List Char → Option (Nat × List Char)
  | [] => some (acc, [])
  | c :: rest =>
    match digitVal c with
    | some d =>
      match parseDigits (acc * 10 + d) rest with
      | some r => some r
      | none => none
    | none => some (acc, c :: rest)

mutual
/-- Fuel-bounded strict JSON value parser. -/
def parseVal : Nat → List Char → Option (JVal × List Char)
  | 0, _ => none
  | fuel + 1, cs =>
    match skipWs cs with
    | [] => none
    | c :: rest =>
      if c = '"' then
        match parseStrBody rest with
        | some (s, r) => some (.str s, r)
        | none => none
      else if c = 't' then
        if ['r', 'u', 'e'].isPrefixOf rest then some (.bool true, rest.drop 3) else none
      else if c = 'f' then
        if ['a', 'l', 's', 'e'].isPrefixOf rest then some (.bool false, rest.drop 4) else none
      else if c = 'n' then
        if ['u', 'l', 'l'].isPrefixOf rest then some (.null, rest.drop 3) else none
      else if c = '-' then
        match rest with
        | d :: _ =>
          match digitVal d with
          | some _ =>
            match parseDigits 0 rest with
            | some (n, r) => some (.num (-(n : Int)), r)
            | none => none
          | none => none
        | [] => none
      else if (digitVal c).isSome then
        match parseDigits 0 (c :: rest) with
        | some (n, r) => some (.num (n : Int), r)
        | none => none
      else if c = '[' then
        match skipWs rest with
        | ']' :: r => some (.arr [], r)
        | r => match parseItems fuel r with
          | some (xs, r2) =>
            match skipWs r2 with
            | ']' :: r3 => some (.arr xs, r3)
            | _ => none
          | none => none
      else if c = '\x7b' then
        match skipWs rest with
        | '\x7d' :: r => some (.obj [], r)
        | r => match parseFields fuel r with
          | some (fs, r2) =>
            match skipWs r2 with
            | '\x7d' :: r3 => some (.obj fs, r3)
            | _ => none
          | none => none
      else none

def parseItems : Nat → List Char → Option (List JVal × List Char)
  | 0, _ => none
  | fuel + 1, cs =>
    match parseVal fuel cs with
    | some (v, r) =>
      match skipWs r with
      | ',' :: r2 =>
        match parseItems fuel r2 with
        | some (xs, r3) => some (v :: xs, r3)
        | none => none
      | r2 => some ([v], r2)
    | none => none

def parseFields : Nat → List Char → Option (List (String × JVal) × List Char)
  | 0, _ => none
  | fuel + 1, cs =>
    match skipWs cs with
    | '"' :: r =>
      match parseStrBody r with
      | some (k, r2) =>
        match skipWs r2 with
        | ':' :: r3 =>
          match parseVal fuel r3 with
          | some (v, r4) =>
            match skipWs r4 with
            | ',' :: r5 =>
              match parseFields fuel r5 with
              | some (fs, r6) => some ((k, v) :: fs, r6)
              | none => none
            | r5 => some ([(k, v)], r5)
          | none => none
        | _ => none
      | none => none
    | _ => none
end

/-- Model of `json.loads`: parse a complete value, rejecting trailing
content; raising becomes `none`. -/
def pyloads (s : String) : Option JVal :=
  match parseVal (s.length + 1) s.toList with
  | some (v, rest) => if (skipWs rest).isEmpty then some v else none
  | none => none

/-- Python `str(x)` on decoded JSON values. -/
def pyStrJ : JVal → String
  | .null => "None"
  | .bool b => if b then "True" else "False"
  | .num n => toString n
  | .str s => s
  | .arr xs =>
    let rec goL : List JVal → String
      | [] => ""
      | [x] => pyStrJ x
      | x :: xs => pyStrJ x ++ ", " ++ goL xs
    "[" ++ goL xs ++ "]"
  | .obj fs =>
    let rec goF : List (String × JVal) → String
      | [] => ""
      | [(k, x)] => apos ++ k ++ apos ++ ": " ++ pyStrJ x
      | (k, x) :: xs => apos ++ k ++ apos ++ ": " ++ pyStrJ x ++ ", " ++ goF xs
    "\x7b" ++ goF fs ++ "\x7d"

/-- Decoded JSON values as Python values. -/
def jvalToPy : JVal → PyVal
  | .null => .pynone
  | .bool b => .bool b
  | .num n => .int n
  | .str s => .str s
  | .arr xs =>
    let rec goL : List JVal → List PyVal
      | [] => []
      | x :: xs => jvalToPy x :: goL xs
    .list (goL xs)
  | .obj fs =>
    let rec goF : List (String × JVal) → List (String × PyVal)
      | [] => []
      | (k, x) :: xs => (k, jvalToPy x) :: goF xs
    .dict (goF fs)

/-- `text.find(c)`: index of the first occurrence or `-1`. -/
def pyFind (s : String) (c : Char) : Int :=
  let rec go : List Char → Nat → Int
    | [], _ => -1
    | x :: xs, i => if x = c then (i : Int) else go xs (i + 1)
  go s.toList 0

/-- `text.rfind(c)`: index of the last occurrence or `-1`. -/
def pyRFind (s : String) (c : Char) : Int :=
  let rec go : List Char → Nat → Int → Int
    | [], _, best => best
    | x :: xs, i, best => go xs (i + 1) (if x = c then (i : Int) else best)
  go s.toList 0 (-1)

/-- `text[start : end + 1]` for in-range bounds. -/
def pySlice (s : String) (start stop : Nat) : String :=
  String.mk ((s.toList.drop start).take (stop + 1 - start))

/-! ## Structured-output parsers (`_safe_json_list` / `_safe_json_dict`) -/

/-- `[str(x) for x in parsed if str(x).strip()]`. -/
def coerceStrList (xs : List JVal) : List String :=
  (xs.map pyStrJ).filter (fun s => pyStrip s ≠ "")

/-- The salvage slice `text[start : end + 1]` for delimiters `o`, `c`
when `start != -1 and end != -1 and end > start`. -/
def salvageSlice (text : String) (o c : Char) : Option String :=
  let start := pyFind text o
  let stop := pyRFind text c
  if start ≠ -1 ∧ stop ≠ -1 ∧ stop > start then
    some (pySlice text start.toNat stop.toNat)
  else none

namespace AskLoop

/-- ask_loop.py `_safe_json_list`: strict parse, then best-effort
extraction of the first JSON array from a noisy response. -/
def safeJsonList (text : String) : List String :=
  match pyloads text with
  | some (.arr xs) => coerceStrList xs
  | _ =>
    match salvageSlice text '[' ']' with
    | some sl =>
      match pyloads sl with
      | some (.arr xs) => coerceStrList xs
      | _ => []
    | none => []

/-- ask_loop.py `_safe_json_dict`: strict parse, then best-effort
extraction of the first JSON object from a noisy response. -/
def safeJsonDict (text : String) : List (String × JVal) :=
  match pyloads text with
  | some (.obj fs) => fs
  | _ =>
    match salvageSlice text '\x7b' '\x7d' with
    | some sl =>
      match pyloads sl with
      | some (.obj fs) => fs
      | _ => []
    | none => []

end AskLoop

namespace EditLoop

/-- edit_loop.py `_safe_json_dict`: strict parse only; any failure
yields the empty dict (the later duplicate definition at lines 181-188
shadows the identical one at lines 147-154). -/
def safeJsonDict (text : String) : List (String × JVal) :=
  match pyloads text with
  | some (.obj fs) => fs
  | _ => []

end EditLoop

/-! ## Todos and events

`todo_update` and `todo_finish_sweep` are defined identically inside
`run_ask_loop` and `run_edit_loop`; both operate on the `todos` list and
the `todo_status` map of the loop state, so they are modelled once over
those two components. -/

structure Todo where
  id : String
  label : String
  status : String
deriving Repr, DecidableEq

/-- Raw planner-supplied todo entries before normalization. -/
structure RawTodo where
  id : String
  label : String
deriving Repr, DecidableEq

inductive Event where
  | status (msg : String)
  | decision (action : String)
  | toolCall (tool : String)
  | toolResult (tool : String)
  | planTodos (todos : List Todo)
  | todoUpdate (id : String) (st : String) (label : Option String)
  | applyStarted (elementIds : List String)
  | applyDone
deriving Repr, DecidableEq

/-- Insertion-ordered status map (Python dict from id to status). -/
abbrev StatusMap := List (String × String)

def lookupStatus (m : StatusMap) (k : String) : Option String :=
  (m.find? (fun p => p.1 == k)).map (·.2)

def setStatus (m : StatusMap) (k v : String) : StatusMap :=
  match m with
  | [] => [(k, v)]
  | (k', v') :: rest => if k' == k then (k, v) :: rest else (k', v') :: setStatus rest k v

/-- `todo_update(todo_id, status)`: strip both, drop empty, no-op when
the status equals the last recorded one, else record it and emit exactly
one `todo_update` event carrying the todo label when known. -/
def todoUpdateCore (todos : List Todo) (m : StatusMap) (todoId status : String) :
    StatusMap × List Event :=
  let tid := pyStrip todoId
  let st := pyStrip status
  if tid = "" ∨ st = "" then (m, [])
  else if lookupStatus m tid = some st then (m, [])
  else
    let label := (todos.find? (fun t => t.id == tid)).map (·.label)
    (setStatus m tid st, [Event.todoUpdate tid st label])

/-- One sweep step of `todo_finish_sweep` for a single todo. -/
def sweepStep (todos : List Todo) (acc : StatusMap × List Event) (t : Todo) :
    StatusMap × List Event :=
  let tid := pyStrip t.id
  if tid = "" then acc
  else
    let cur := pyOrS (lookupStatus acc.1 tid) (if t.status = "" then "pending" else t.status)
    if cur = "done" ∨ cur = "skipped" then acc
    else
      let r := todoUpdateCore todos acc.1 tid "skipped"
      (r.1, acc.2 ++ r.2)

/-- `todo_finish_sweep`: mark any remaining todos as skipped. -/
def todoFinishSweepCore (todos : List Todo) (m : StatusMap) : StatusMap × List Event :=
  todos.foldl (sweepStep todos) (m, [])

/-- `_normalize_plan_todos` (shared shape; the caller passes the cap:
10 in ask_loop, 12 in edit_loop). -/
def normalizePlanTodos (raw : List RawTodo) (fallback : List RawTodo) (cap : Nat) :
    List Todo :=
  let todos := raw.filterMap (fun it =>
    let tid := pyStrip it.id
    let label := pyStrip it.label
    if tid = "" ∨ label = "" then none else some (Todo.mk tid label "pending"))
  let todos := if todos.isEmpty then
    fallback.map (fun x => Todo.mk x.id x.label "pending") else todos
  let rec dedupeTodos (seen : List String) : List Todo → List Todo
    | [] => []
    | t :: ts =>
      if t.id = "" ∨ t.id ∈ seen then dedupeTodos seen ts
      else t :: dedupeTodos (t.id :: seen) ts
  (dedupeTodos [] todos).take cap

/-- `[str(x) for x in xs if str(x).strip()]` on string lists. -/
def filterBlank (xs : List String) : List String :=
  xs.filter (fun s => pyStrip s ≠ "")

/-! ## Ask Loop (`run_ask_loop`)

The loop body is embedded phase by phase.  Collaborator calls
(`llm_service.*` agents and store queries) are oracle fields of
`AskEnv`; parsed structured outputs are supplied at the level the
Python code consumes them (after `_safe_json_dict` / result-shape
normalization), indexed by the retrieve attempt on which the call is
made, so every collaborator behaviour is covered. -/

namespace AskLoop

open Coverage

structure AskLoopBudgets where
  max_iterations : Nat := 12
  max_retrieve_attempts : Nat := 2
  k_per_query : Nat := 5
  max_query_variants : Nat := 5
  max_query_variants_broaden : Nat := 8
  max_candidates : Nat := 30
  rerank_select_min : Nat := 4
  rerank_select_max : Nat := 10
  final_context_size : Nat := 3

/-- The `coverage` object of a plan; `none` fields model absent or
non-list values. -/
structure AskCoverage where
  must_include_element_ids : Option (List String) := none
  must_include_scene_ids : Option (List String) := none

/-- A non-empty parsed plan dict; `none` fields model absent values. -/
structure AskPlanObj where
  next_action : Option String := none
  todos : List RawTodo := []
  clarifying_questions : Option (List String) := none
  coverage : Option AskCoverage := none
  query_variants : Option (List String) := none
  answer_outline : Option (List String) := none
  use_context : Option Bool := none

structure AskRerankObj where
  selectedElementIds : Option (List String) := none
  evidence : Option (List (String × String)) := none

structure AskGateObj where
  grounded : Option Bool := none
  next_action : Option String := none

/-- `AskLoopState` from ask_loop.py.  `plan = none` is the unplanned
state; `plan = some none` models a planning call that produced the
empty dict. -/
structure AskLoopState where
  question : String
  scene_context : String
  message_history : List String := []
  selected_element_id : Option String := none
  selected_text : Option String := none
  context_policy : String := "scene_plus_adjacent"
  context_element_ids : List String := []
  retrieve_attempts : Nat := 0
  iterations : Nat := 0
  retrieved_context : Option String := none
  evidence_element_ids : List String := []
  evidence : Option (List (String × String)) := none
  plan : Option (Option AskPlanObj) := none
  todos : List Todo := []
  todo_status : StatusMap := []
  todos_emitted : Bool := false

/-- Collaborator oracles and environment flags for one ask run. -/
structure AskEnv where
  ask_plan_enabled : Bool := true
  ask_rerank_enabled : Bool := true
  ask_grounding_gate : Bool := true
  max_must_include : Nat := 12
  hasAskPlanAgent : Bool := true
  hasQueryVariantsAgent : Bool := true
  hasRerankAgent : Bool := true
  hasGroundingAgent : Bool := true
  globalIndex : String := ""
  hasDb : Bool := true
  planObj : Option AskPlanObj := none
  queryVariants : Nat → List String := fun _ => []
  searchTerms : Nat → List String := fun _ => []
  vectorSearch : Nat → Nat → String → Nat → List String := fun _ _ _ _ => []
  dbSearch : Nat → List String := fun _ => []
  rerank : Nat → AskRerankObj := fun _ => {}
  extractContext : List String → Nat → String × String := fun _ _ => ("", "")
  gate : Nat → AskGateObj := fun _ => {}
  answer : String := ""

/-- `todo_update` acting on the loop state. -/
def tdU (st : AskLoopState) (i s : String) : AskLoopState × List Event :=
  ({ st with todo_status := (todoUpdateCore st.todos st.todo_status i s).1 },
   (todoUpdateCore st.todos st.todo_status i s).2)

/-- `todo_finish_sweep` acting on the loop state. -/
def tdSweep (st : AskLoopState) : AskLoopState × List Event :=
  ({ st with todo_status := (todoFinishSweepCore st.todos st.todo_status).1 },
   (todoFinishSweepCore st.todos st.todo_status).2)

inductive AskOut where
  | next (st : AskLoopState)
  | done (answer : String) (st : AskLoopState)

/-- The clarify return message (questions capped to three). -/
def clarifyMsg (questions : List String) : String :=
  "I’m not fully sure what you mean yet. Could you clarify:\n- " ++
    String.intercalate "\n- " (questions.take 3)

/-- Context assembled on the `answer_direct` early exit. -/
def directContext (env : AskEnv) (st : AskLoopState) (useCtx : Bool) : String :=
  let parts :=
    (if env.globalIndex ≠ "" then ["GLOBAL INDEX (project-wide)", env.globalIndex] else []) ++
    (if useCtx ∧ st.scene_context ≠ "" then ["SCENE CONTEXT (local excerpt)", st.scene_context] else [])
  pyStrip (String.intercalate "\n" parts)

/-- Fallback context from the provided window or the global index. -/
def fallbackContext (env : AskEnv) (st : AskLoopState) : String :=
  let parts :=
    if pyStrip st.scene_context ≠ "" then ["SCENE CONTEXT (local excerpt)", st.scene_context]
    else if env.globalIndex ≠ "" then ["GLOBAL INDEX (project-wide)", env.globalIndex]
    else []
  pyStrip (String.intercalate "\n" parts)

/-- ask_loop.py lines 556-573: overwrite the chosen set from the
reranker when it returned a non-empty list, re-insert must-include ids
at the front, and clamp to the configured bounds. -/
def chooseEvidence (b : AskLoopBudgets) (must candidateIds : List String)
    (rerankSelected : Option (List String)) : List String :=
  let chosen := candidateIds
  let chosen := match rerankSelected with
    | some ids => if !ids.isEmpty then filterBlank ids else chosen
    | none => chosen
  let chosen := if !must.isEmpty then dedupePreserveOrder (must ++ chosen) else chosen
  let chosen := (dedupePreserveOrder chosen).take 25
  let chosen := if chosen.length < b.rerank_select_min then candidateIds.take b.rerank_select_min
    else chosen
  if chosen.length > b.rerank_select_max then chosen.take b.rerank_select_max else chosen

/-- Put the original question first, dropping later duplicates of it. -/
def ensureQuestionFirst (question : String) (variants : List String) : List String :=
  match variants with
  | [] => []
  | v :: _ => if v ≠ question then question :: variants.filter (· ≠ question) else variants

/-- Shared tail: use the provided scene context window (or the global
index) as the retrieved context. -/
def retrieveFallbackTail (env : AskEnv) (st : AskLoopState) : List Event × AskOut :=
  let st1 := { st with retrieved_context := some (fallbackContext env st) }
  let msg := if pyStrip st.scene_context ≠ "" then "[Reading] Using provided context window"
    else "[Reading] Using global index context"
  let r := tdU st1 "retrieve" "skipped"
  (Event.status msg :: r.2, .next r.1)

/-- Grounding-gate tail after a successful context extraction. -/
def groundingTail (env : AskEnv) (st : AskLoopState) : List Event × AskOut :=
  if env.ask_grounding_gate ∧ env.hasGroundingAgent then
    let r1 := tdU st "grounding" "in_progress"
    let evs := r1.2 ++ [Event.decision "grounding_check",
      Event.toolCall "llm.ask_grounding_check", Event.toolResult "llm.ask_grounding_check"]
    let g := env.gate st.retrieve_attempts
    let grounded := g.grounded.getD true
    let na := g.next_action.getD "answer"
    if ¬grounded ∨ na = "retrieve_more" then
      (evs ++ [Event.status "[Reading] Not enough evidence, broadening retrieval"],
       .next { r1.1 with retrieved_context := none })
    else
      let r2 := tdU r1.1 "grounding" "done"
      (evs ++ r2.2, .next r2.1)
  else ([], .next st)

/-- The store-backed retrieval section (per-variant vector search,
keyword fallback, rerank, clamp, context extraction, grounding gate). -/
def retrieveWithDb (env : AskEnv) (b : AskLoopBudgets) (st0 : AskLoopState)
    (broaden : Bool) (must variants : List String) : List Event × AskOut :=
  let attempt := st0.retrieve_attempts
  let r0 := tdU st0 "retrieve" "in_progress"
  let st := r0.1
  let kPer := b.k_per_query + (if broaden then 3 else 0)
  let perVariant := variants.enum.map (fun p =>
    ([Event.toolCall "vec_search", Event.toolResult "vec_search"],
     env.vectorSearch attempt p.1 p.2 kPer))
  let vecEvents := (perVariant.map (·.1)).flatten
  let candidateIds := must ++ (perVariant.map (·.2)).flatten
  let candidateIds := (dedupePreserveOrder candidateIds).take b.max_candidates
  let dbFallback := candidateIds.isEmpty
  let candidateIds := if dbFallback then env.dbSearch attempt else candidateIds
  let evs1 := r0.2 ++ vecEvents ++
    (if dbFallback then [Event.toolCall "db_search", Event.toolResult "db_search"] else [])
  if candidateIds.isEmpty then
    let rF := retrieveFallbackTail env st
    (evs1 ++ rF.1, rF.2)
  else
    let rerankActive := env.ask_rerank_enabled ∧ env.hasRerankAgent
    let (st, rerankEvs, sel) :=
      if rerankActive then
        let r1 := tdU st "rerank" "in_progress"
        let parsed := env.rerank attempt
        let st1 := match parsed.evidence with
          | some ev => { r1.1 with evidence := some ev }
          | none => r1.1
        let r2 := tdU st1 "rerank" "done"
        (r2.1,
         r1.2 ++ [Event.decision "rerank", Event.toolCall "llm.ask_rerank",
           Event.toolResult "llm.ask_rerank"] ++ r2.2,
         parsed.selectedElementIds)
      else (st, ([] : List Event), (none : Option (List String)))
    let chosen := chooseEvidence b must candidateIds sel
    let st := { st with evidence_element_ids := chosen }
    let ctx := (env.extractContext chosen (b.final_context_size + (if broaden then 1 else 0))).1
    if ctx ≠ "" then
      let st := { st with retrieved_context := some ctx }
      let r3 := tdU st "retrieve" "done"
      let evs2 := [Event.toolCall "db_extract_context"] ++ r3.2 ++
        [Event.toolResult "db_extract_context",
         Event.status ("[Reading] Loaded " ++ toString chosen.length ++ " evidence elements")]
      let g := groundingTail env r3.1
      (evs1 ++ rerankEvs ++ evs2 ++ g.1, g.2)
    else
      let rF := retrieveFallbackTail env st
      (evs1 ++ rerankEvs ++
        [Event.toolCall "db_extract_context", Event.toolResult "db_extract_context"] ++ rF.1,
       rF.2)

/-- Query expansion, term extraction and dispatch into the store
section or the fallback. -/
def retrieveMain (env : AskEnv) (b : AskLoopBudgets) (st : AskLoopState) (broaden : Bool)
    (mustIds mustScene plannerVariants : List String) (evAcc : List Event) :
    List Event × AskOut :=
  let attempt := st.retrieve_attempts
  let evQ := [Event.decision "rewrite_queries"]
  let (variants, evVar) :=
    if env.hasQueryVariantsAgent then
      (env.queryVariants attempt,
       [Event.toolCall "llm.ask_query_variants", Event.toolResult "llm.ask_query_variants"])
    else ([], [])
  let variants := if variants.isEmpty then [st.question] else variants
  let variants := ensureQuestionFirst st.question variants
  let variants := if !plannerVariants.isEmpty then
      dedupePreserveOrder (variants ++ ensureQuestionFirst st.question plannerVariants)
    else variants
  let variants := variants.take (if broaden then b.max_query_variants_broaden else b.max_query_variants)
  let terms := env.searchTerms attempt
  let evT := [Event.toolCall "llm.extract_search_terms", Event.toolResult "llm.extract_search_terms"]
  let must := (dedupePreserveOrder (mustIds ++ mustScene)).take env.max_must_include
  if env.hasDb ∧ !terms.isEmpty then
    let r := retrieveWithDb env b st broaden must variants
    (evAcc ++ evQ ++ evVar ++ evT ++ r.1, r.2)
  else
    let rF := retrieveFallbackTail env st
    (evAcc ++ evQ ++ evVar ++ evT ++ rF.1, rF.2)

/-- The RETRIEVE branch of the loop body (planning call, plan
consumption, clarify / answer-direct exits, then retrieval). -/
def retrievePhase (env : AskEnv) (b : AskLoopBudgets) (st0 : AskLoopState) :
    List Event × AskOut :=
  let st := { st0 with retrieve_attempts := st0.retrieve_attempts + 1 }
  let broaden := st.retrieve_attempts > 1
  let ev0 := [Event.decision "retrieve_context"]
  let doPlan := env.ask_plan_enabled ∧ st.plan.isNone ∧ env.hasAskPlanAgent ∧
    st.retrieve_attempts = 1
  let (st, evPlan) :=
    if doPlan then
      ({ st with plan := some env.planObj },
       [Event.decision "plan", Event.toolCall "llm.ask_plan", Event.toolResult "llm.ask_plan"])
    else (st, [])
  match st.plan with
  | some (some p) =>
    let naEarly := pyLower (pyStrip (pyOrS p.next_action "retrieve"))
    let fallback : List RawTodo :=
      if naEarly ∈ ["answer_direct", "answer", "direct"] then
        [⟨"plan", "Understand the question"⟩, ⟨"answer", "Write the answer"⟩]
      else
        [⟨"plan", "Understand the question"⟩, ⟨"retrieve", "Retrieve evidence"⟩,
         ⟨"answer", "Write the answer"⟩]
    let (st, evTodos) :=
      if st.todos_emitted = false then
        let st1 := { st with todos := normalizePlanTodos p.todos fallback 10,
                             todos_emitted := true }
        let r := tdU st1 "plan" "done"
        (r.1, Event.planTodos st1.todos :: r.2)
      else (st, [])
    let mustIds := match p.coverage with
      | some cov => match cov.must_include_element_ids with
        | some ids => filterBlank ids
        | none => []
      | none => []
    let mustScene := match p.coverage with
      | some cov => match cov.must_include_scene_ids with
        | some ids => filterBlank ids
        | none => []
      | none => []
    let plannerVariants := match p.query_variants with
      | some qv => filterBlank qv
      | none => []
    let useCtx := p.use_context.getD true
    let na := pyLower (pyStrip (pyOrS p.next_action "retrieve"))
    if na ∈ ["clarify", "need_more", "need_more_info"] then
      let r1 := tdU st "clarify" "in_progress"
      let qs := match p.clarifying_questions with
        | some l => (l.map pyStrip).filter (· ≠ "")
        | none => []
      let questions :=
        if qs.isEmpty then
          ["Can you clarify what you mean (what part of the screenplay or what goal)?"]
        else qs
      let r2 := tdU r1.1 "clarify" "done"
      let r3 := tdSweep r2.1
      (ev0 ++ evPlan ++ evTodos ++ [Event.decision "clarify"] ++ r1.2 ++
         [Event.status "[Clarify] Need more information to answer"] ++ r2.2 ++ r3.2,
       .done (clarifyMsg questions) r3.1)
    else if na ∈ ["answer_direct", "answer", "direct"] then
      let st := { st with retrieved_context := some (directContext env st useCtx) }
      let r := tdU st "retrieve" "skipped"
      (ev0 ++ evPlan ++ evTodos ++
         [Event.decision "skip_retrieval",
          Event.status "[Reading] Skipping retrieval (answering directly)"] ++ r.2,
       .next r.1)
    else
      retrieveMain env b st broaden mustIds mustScene plannerVariants (ev0 ++ evPlan ++ evTodos)
  | _ => retrieveMain env b st broaden [] [] [] (ev0 ++ evPlan)

/-- The ANSWER branch: one model call, then the finish sweep.  Prompt
assembly feeds only the model call and is absorbed into the `answer`
oracle. -/
def answerPhase (env : AskEnv) (st : AskLoopState) : List Event × AskOut :=
  let r1 := tdU st "answer" "in_progress"
  let r2 := tdU r1.1 "answer" "done"
  let r3 := tdSweep r2.1
  ([Event.decision "answer", Event.status "[Writing] Drafting response"] ++ r1.2 ++
     [Event.toolCall "llm.ask_answer", Event.toolResult "llm.ask_answer"] ++ r2.2 ++ r3.2,
   .done env.answer r3.1)

/-- One execution of the `while` body of `run_ask_loop`. -/
def askBody (env : AskEnv) (b : AskLoopBudgets) (st0 : AskLoopState) :
    List Event × AskOut :=
  let st := { st0 with iterations := st0.iterations + 1 }
  if st.retrieved_context.isNone ∧ st.retrieve_attempts < b.max_retrieve_attempts then
    retrievePhase env b st
  else answerPhase env st

/-- The inline sweep on the iteration-budget exit path (ask_loop.py
lines 764-775): events are emitted but `todo_status` is not updated. -/
def budgetSweepEvents (st : AskLoopState) : List Event :=
  if st.todos_emitted then
    st.todos.filterMap (fun t =>
      let tid := pyStrip t.id
      if tid = "" then none
      else
        let cur := pyOrS (lookupStatus st.todo_status tid)
          (if t.status = "" then "pending" else t.status)
        if cur = "done" ∨ cur = "skipped" then none
        else some (Event.todoUpdate tid "skipped" (some t.label)))
  else []

def iterationBudgetMessage : String :=
  "I couldn" ++ apos ++
    "t complete that request within the iteration budget. Try selecting the relevant part of the screenplay and ask again."

structure AskRun where
  answer : String
  state : AskLoopState
  events : List Event
  produced : Bool

/-- The `while state.iterations < budgets.max_iterations` loop, with the
remaining iteration budget as fuel. -/
def askLoopGo (env : AskEnv) (b : AskLoopBudgets) : Nat → AskLoopState → AskRun
  | 0, st =>
    { answer := iterationBudgetMessage, state := st,
      events := Event.status "[Error] Exceeded iteration budget" :: budgetSweepEvents st,
      produced := false }
  | fuel + 1, st =>
    match askBody env b st with
    | (evs, .done a st') => { answer := a, state := st', events := evs, produced := true }
    | (evs, .next st') =>
      let r := askLoopGo env b fuel st'
      { r with events := evs ++ r.events }

/-- `run_ask_loop`. -/
def runAskLoop (env : AskEnv) (b : AskLoopBudgets) (st : AskLoopState) : AskRun :=
  let r := askLoopGo env b (b.max_iterations - st.iterations) st
  { r with events := (Event.status "[Start] Answering" ::
      (if env.globalIndex ≠ "" then [Event.status "[Index] Using global scene/character index"]
       else [])) ++ r.events }

end AskLoop

/-! ## Edit Loop (`run_edit_loop`) -/

namespace EditLoop

open Coverage

structure EditLoopBudgets where
  max_iterations : Nat := 20
  max_locate_attempts : Nat := 3
  max_refine_attempts : Nat := 2
  max_verify_attempts : Nat := 2

/-- `{"edits": []}`. -/
def emptyEdits : PyVal := .dict [("edits", .list [])]

/-- `_coerce_edit_response`: one edit entry (non-dicts are skipped). -/
def coerceEditEntry (e : PyVal) : Option PyVal :=
  match e with
  | .dict _ =>
    some (.dict (
      [("elementId", PyVal.str (pyStrV (pyGetD e "elementId" (.str "")))),
       ("elementType", PyVal.str (pyStrV (pyGetD e "elementType" (.str "")))),
       ("originalContent", PyVal.str (pyStrV (pyGetD e "originalContent" (.str "")))),
       ("newContent", PyVal.str (pyStrV (pyGetD e "newContent" (.str ""))))] ++
      (match pyGet e "reason" with
       | some .pynone => []
       | some r => [("reason", r)]
       | none => []) ++
      (match pyGet e "newElements" with
       | some .pynone => []
       | some r => [("newElements", r)]
       | none => [])))
  | _ => none

/-- `_coerce_edit_response` from edit_loop.py; the fuel bounds the
recursion through the stringified-dict branch (depth two suffices: a
parsed value entering the recursive call is never again a string that
starts with a brace). -/
def coerceEditResponse : Nat → PyVal → Option PyVal
  | 0, _ => none
  | fuel + 1, data =>
    if !pyTruthy data then none
    else
      match data with
      | .dict fs =>
        match pyGet (.dict fs) "edits" with
        | some (.list es) =>
          some (.dict [("edits", .list (es.filterMap coerceEditEntry))])
        | _ => none
      | .str s =>
        if pyStartsWith (pyStrip s) "\x7b" then
          match pyloads s with
          | some j => coerceEditResponse fuel (jvalToPy j)
          | none => none
        else none
      | _ => none

/-- `_coerce_edit_response` as invoked at the call sites. -/
def coerceResult (d : PyVal) : Option PyVal := coerceEditResponse 2 d

def verifyFailurePhrases : List String :=
  ["issues found", "invalid element id", "invalid element ids", "cannot verify",
   "missing required", "not found in screenplay"]

/-- `_looks_like_verify_failure`. -/
def looksLikeVerifyFailure (text : String) : Bool :=
  let t := pyLower text
  verifyFailurePhrases.any (fun s => strContainsSub t s)

/-- Parsed `plan_intent` result (`none` fields model absent values;
`raw` is the raw text fallback used when the plan dict is empty). -/
structure EditPlanObj where
  intentField : Option String := none
  raw : String := ""
  next_action : Option String := none
  clarifying_questions : Option (List String) := none
  todos : List RawTodo := []

/-- One structured verifier issue entry. -/
structure VIssue where
  code : Option String := none
  message : Option String := none
  severity : Option String := none

/-- Parsed structured verifier result. -/
structure VerifyObj where
  okField : Option Bool := none
  suggested : Option String := none
  issues : List VIssue := []
  isEmpty : Bool := false
  dumped : String := ""

/-- `EditLoopState` from edit_loop.py. -/
structure EditLoopState where
  user_prompt : String
  scene_context : String
  message_history : List String := []
  selected_element_id : Option String := none
  selected_text : Option String := none
  context_policy : String := "scene_plus_adjacent"
  context_element_ids : List String := []
  intent : Option String := none
  search_terms : List String := []
  relevant_element_ids : List String := []
  loaded_context : Option String := none
  understanding : Option String := none
  proposed_edits : Option PyVal := none
  applied_edits : Option PyVal := none
  verification_result : Option String := none
  verification_issues : List String := []
  todos : List Todo := []
  todo_status : StatusMap := []
  todos_emitted : Bool := false
  apply_started_emitted : Bool := false
  context_size : Nat := 3
  iterations : Nat := 0
  locate_attempts : Nat := 0
  refine_attempts : Nat := 0
  verify_attempts : Nat := 0

/-- Collaborator oracles and environment flags for one edit run.
Model results are supplied at the level the Python code consumes them;
per-phase calls are indexed by the relevant attempt counter or the
iteration on which they happen, so repeated calls may differ. -/
structure EditEnv where
  verify_recover_enabled : Bool := true
  hasStructuredVerifyAgent : Bool := true
  hasReviseAgent : Bool := true
  globalIndex : String := ""
  hasDb : Bool := true
  sceneContext : String := ""
  planIntent : EditPlanObj := {}
  searchTerms : Nat → List String := fun _ => []
  vectorSearch : Nat → List String := fun _ => []
  dbSearch : Nat → List String := fun _ => []
  locateFallbackIds : Nat → List String := fun _ => []
  extractContext : List String → Nat → String × String := fun _ _ => ("", "")
  loadContextFallback : Nat → String := fun _ => ""
  synthesize : Nat → String := fun _ => ""
  propose : Nat → PyVal := fun _ => .pynone
  refine : Nat → PyVal := fun _ => .pynone
  verify : Nat → VerifyObj := fun _ => {}
  verifyFreeform : Nat → String := fun _ => ""
  revise : Nat → PyVal := fun _ => .pynone
  invalidIds : List String → List String := fun _ => []

/-- `todo_update` acting on the loop state. -/
def tdUE (st : EditLoopState) (i s : String) : EditLoopState × List Event :=
  ({ st with todo_status := (todoUpdateCore st.todos st.todo_status i s).1 },
   (todoUpdateCore st.todos st.todo_status i s).2)

/-- `todo_finish_sweep` acting on the loop state. -/
def tdSweepE (st : EditLoopState) : EditLoopState × List Event :=
  ({ st with todo_status := (todoFinishSweepCore st.todos st.todo_status).1 },
   (todoFinishSweepCore st.todos st.todo_status).2)

inductive EditOut where
  | next (st : EditLoopState)
  | done (result : PyVal) (st : EditLoopState)

def strTake (s : String) (n : Nat) : String := String.mk (s.toList.take n)

def editFallbackTodos : List RawTodo :=
  [⟨"plan_intent", "Understand edit intent"⟩, ⟨"clarify", "Ask clarifying questions"⟩,
   ⟨"locate", "Locate relevant elements"⟩, ⟨"load_context", "Load relevant context"⟩,
   ⟨"propose", "Propose edits"⟩, ⟨"refine", "Refine edits"⟩, ⟨"verify", "Verify constraints"⟩]

def clarifyStatusMsg (questions : List String) : String :=
  "I need a bit more info before editing:\n- " ++ String.intercalate "\n- " (questions.take 3)

/-- The ROUTE branch (`state.intent is None`): plan the intent, emit
todos once, and either short-circuit on clarify or proceed. -/
def planIntentPhase (env : EditEnv) (st : EditLoopState) : List Event × EditOut :=
  let p := env.planIntent
  let intentText := pyOrS p.intentField p.raw
  let st := { st with intent := some intentText }
  let ev0 := [Event.decision "plan_intent", Event.toolCall "llm.plan_intent",
    Event.toolResult "llm.plan_intent"]
  let (st, evTodos) :=
    if st.todos_emitted = false then
      let st1 := { st with todos := normalizePlanTodos p.todos editFallbackTodos 12,
                           todos_emitted := true }
      let r := tdUE st1 "plan_intent" "done"
      (r.1, Event.planTodos st1.todos :: r.2)
    else (st, [])
  let na := pyLower (pyStrip (pyOrS p.next_action "proceed"))
  if na = "clarify" then
    let r1 := tdUE st "clarify" "in_progress"
    let qs := match p.clarifying_questions with
      | some l => (l.map pyStrip).filter (· ≠ "")
      | none => []
    let questions :=
      if qs.isEmpty then
        ["Which scene/line should I edit, and what tone/intent should the rewrite have?"]
      else qs
    let r2 := tdUE r1.1 "clarify" "done"
    let r3 := tdSweepE r2.1
    (ev0 ++ evTodos ++ [Event.decision "clarify"] ++ r1.2 ++
       [Event.status (clarifyStatusMsg questions)] ++ r2.2 ++ r3.2,
     .done emptyEdits r3.1)
  else
    (ev0 ++ evTodos ++ [Event.status ("[Planning] " ++ strTake intentText 120 ++ "...")],
     .next st)

def locateGuidanceMsg : String :=
  "[Locating] No database matches in the current context window. Try selecting the exact dialogue/scene, or switch to full context."

/-- The LOCATE branch: term extraction, vector then keyword search,
LLM fallback in the context window, or the terminal guidance return. -/
def locatePhase (env : EditEnv) (st0 : EditLoopState) : List Event × EditOut :=
  let st := { st0 with locate_attempts := st0.locate_attempts + 1 }
  let attempt := st.locate_attempts
  let ev0 := [Event.decision "locate_candidates"]
  let r0 := tdUE st "locate" "in_progress"
  let st := { r0.1 with search_terms := env.searchTerms attempt }
  let evTerms := [Event.toolCall "llm.extract_search_terms",
    Event.toolResult "llm.extract_search_terms"]
  let (elementIds, evSearch) :=
    if env.hasDb ∧ !st.search_terms.isEmpty then
      let vec := env.vectorSearch attempt
      let evV := [Event.toolCall "vec_search", Event.toolResult "vec_search"]
      if vec.isEmpty then
        (env.dbSearch attempt,
         evV ++ [Event.toolCall "db_search", Event.toolResult "db_search"])
      else (vec, evV)
    else ([], [])
  if !elementIds.isEmpty then
    let st := { st with relevant_element_ids := elementIds }
    let r1 := tdUE st "locate" "done"
    (ev0 ++ r0.2 ++ evTerms ++ evSearch ++
       [Event.status ("[Locating] Found " ++ toString elementIds.length ++
         " relevant elements via retrieval")] ++ r1.2,
     .next r1.1)
  else if env.sceneContext ≠ "" then
    let ids0 := env.locateFallbackIds attempt
    let ids := if ids0.isEmpty ∧ !st.context_element_ids.isEmpty then
        st.context_element_ids.take 20
      else ids0
    let st := { st with relevant_element_ids := ids }
    let r1 := tdUE st "locate" "done"
    (ev0 ++ r0.2 ++ evTerms ++ evSearch ++
       [Event.status "[Locating] No database matches, using LLM fallback in current context window",
        Event.toolCall "llm.locate_fallback", Event.toolResult "llm.locate_fallback",
        Event.status ("[Locating] Found " ++ toString ids.length ++ " relevant elements via LLM")] ++
       r1.2,
     .next r1.1)
  else
    let r1 := tdSweepE st
    (ev0 ++ r0.2 ++ evTerms ++ evSearch ++ [Event.status locateGuidanceMsg] ++ r1.2,
     .done emptyEdits r1.1)

/-- LOAD_CONTEXT tail through the LLM fallback. -/
def llmLoadTail (env : EditEnv) (st : EditLoopState) (evAcc : List Event) :
    List Event × EditOut :=
  let st := { st with loaded_context := some (env.loadContextFallback st.iterations) }
  let r1 := tdUE st "load_context" "done"
  (evAcc ++ [Event.toolCall "llm.load_context_fallback",
     Event.toolResult "llm.load_context_fallback",
     Event.status "[Loading Context] Extracted context via LLM"] ++ r1.2,
   .next r1.1)

/-- The LOAD_CONTEXT branch. -/
def loadContextPhase (env : EditEnv) (st : EditLoopState) : List Event × EditOut :=
  let ev0 := [Event.decision "load_context"]
  let r0 := tdUE st "load_context" "in_progress"
  let st := r0.1
  if env.hasDb ∧ !st.relevant_element_ids.isEmpty then
    let ctx := (env.extractContext (st.relevant_element_ids.take 20) st.context_size).1
    if ctx ≠ "" then
      let st1 := { st with loaded_context := some ctx }
      let r1 := tdUE st1 "load_context" "done"
      (ev0 ++ r0.2 ++
         [Event.toolCall "db_extract_context", Event.toolResult "db_extract_context",
          Event.status ("[Loading Context] ✅ Extracted " ++
            toString st.relevant_element_ids.length ++ " elements from database")] ++ r1.2,
       .next r1.1)
    else
      llmLoadTail env st (ev0 ++ r0.2 ++
        [Event.toolCall "db_extract_context", Event.toolResult "db_extract_context",
         Event.status "[Loading Context] ⚠️ Database extraction failed, using LLM fallback"])
  else
    llmLoadTail env st (ev0 ++ r0.2)

/-- The SYNTHESIZE branch. -/
def synthesizePhase (env : EditEnv) (st : EditLoopState) : List Event × EditOut :=
  let ev0 := [Event.decision "synthesize"]
  let r0 := tdUE st "synthesize" "in_progress"
  let st := { r0.1 with understanding := some (env.synthesize st.iterations) }
  let r1 := tdUE st "synthesize" "done"
  (ev0 ++ r0.2 ++ [Event.toolCall "llm.synthesize", Event.toolResult "llm.synthesize",
     Event.status "[Synthesizing] Understanding complete"] ++ r1.2,
   .next r1.1)

/-- The PROPOSE branch: coerce the duck-typed result to the canonical
shape, defaulting malformed output to the empty edit set. -/
def proposePhase (env : EditEnv) (st : EditLoopState) : List Event × EditOut :=
  let ev0 := [Event.decision "propose_edits"]
  let r0 := tdUE st "propose" "in_progress"
  let edits := coerceResult (env.propose st.iterations)
  let st := { r0.1 with proposed_edits := some (pyOrVal edits emptyEdits) }
  let r1 := tdUE st "propose" "done"
  (ev0 ++ r0.2 ++ [Event.toolCall "llm.propose_edits", Event.toolResult "llm.propose_edits",
     Event.status "[Proposing] Generated edit proposals"] ++ r1.2,
   .next r1.1)

/-- Element ids carried by a proposed edit set (for `apply_started`). -/
def editElementIds (p : Option PyVal) : List String :=
  (pyGetList (pyOrVal p (.dict [])) "edits").filterMap (fun e =>
    match e with
    | .dict _ =>
      match pyGet e "elementId" with
      | some v => if pyTruthy v then some (pyStrV v) else none
      | none => none
    | _ => none)

/-- The REFINE branch. -/
def refinePhase (env : EditEnv) (st0 : EditLoopState) : List Event × EditOut :=
  let st := { st0 with refine_attempts := st0.refine_attempts + 1 }
  let ev0 := [Event.decision "refine_edits"]
  let r0 := tdUE st "refine" "in_progress"
  let st := r0.1
  let (st, evApply) :=
    if st.apply_started_emitted = false then
      ({ st with apply_started_emitted := true },
       [Event.applyStarted (editElementIds st.proposed_edits)])
    else (st, [])
  let edits := coerceResult (env.refine st.refine_attempts)
  let st := { st with applied_edits := some (pyOrVal edits (pyOrVal st.proposed_edits emptyEdits)) }
  let r1 := tdUE st "refine" "done"
  (ev0 ++ r0.2 ++ evApply ++ [Event.toolCall "llm.refine_edits",
     Event.toolResult "llm.refine_edits",
     Event.status "[Refining] Edits validated and refined"] ++ r1.2,
   .next r1.1)

/-- The `relocate` recovery strategy (edit_loop.py lines 764-771). -/
def relocateRecovery (st : EditLoopState) : EditLoopState :=
  { st with relevant_element_ids := [], loaded_context := none, understanding := none,
            proposed_edits := none, applied_edits := none,
            context_size := min (st.context_size + 2) 8 }

/-- The `reload_context` recovery strategy (edit_loop.py lines 773-779). -/
def reloadContextRecovery (st : EditLoopState) : EditLoopState :=
  { st with loaded_context := none, understanding := none,
            proposed_edits := none, applied_edits := none,
            context_size := min (st.context_size + 2) 8 }

inductive VerifyOut where
  | next (st : EditLoopState)
  | done (result : PyVal) (st : EditLoopState)
  | pass (st : EditLoopState)

/-- The lightweight structural checks of VERIFY: missing ids, empty
new content, ids outside the allowed sets, store id verification. -/
def verifyChecks (env : EditEnv) (st : EditLoopState) (applied : PyVal) : List String :=
  let edits := pyGetList applied "edits"
  let issues1 := edits.flatMap (fun e =>
    (if !pyTruthy (pyGetD e "elementId" .pynone) then ["Edit is missing elementId"] else []) ++
    (if pyBeq (pyGetD e "newContent" (.str "")) (.str "") then
       ["Edit for " ++ pyStrV (pyGetD e "elementId" (.str "<unknown>")) ++
         " has empty newContent"]
     else []))
  let allowed := st.context_element_ids.filter (· ≠ "") ++
    st.relevant_element_ids.filter (· ≠ "")
  let issues2 :=
    if !allowed.isEmpty then
      edits.flatMap (fun e =>
        match pyGet e "elementId" with
        | some eid =>
          if pyTruthy eid && !(allowed.contains (pyStrV eid)) then
            ["Edit elementId not in context: " ++ pyStrV eid]
          else []
        | none => [])
    else []
  let dbIds :=
    if env.hasDb then
      edits.filterMap (fun e =>
        match pyGet e "elementId" with
        | some eid => if pyTruthy eid then some (pyStrV eid) else none
        | none => none)
    else []
  let invalid := if env.hasDb ∧ !dbIds.isEmpty then env.invalidIds dbIds else []
  let issuesDb :=
    if env.hasDb ∧ !dbIds.isEmpty ∧ !invalid.isEmpty then
      ["Invalid element IDs: " ++ String.intercalate ", " invalid]
    else []
  issues1 ++ issues2 ++ issuesDb

/-- The verifier model call: structured (with recovery) or legacy
freeform, yielding the ok flag, suggested recovery, parsed issues,
the recorded verification result and the emitted events. -/
structure VerifyStep where
  verifierOk : Bool
  suggested : String
  issues3 : List String
  vres : Option String
  evVer : List Event

def verifyAgentStep (env : EditEnv) (st : EditLoopState) : VerifyStep :=
  if env.verify_recover_enabled ∧ env.hasStructuredVerifyAgent then
    let vo := env.verify st.verify_attempts
    { verifierOk := vo.okField.getD true,
      suggested := vo.suggested.getD "revise_edits",
      issues3 := (vo.issues.take 12).map (fun it =>
        it.severity.getD "error" ++ ":" ++ it.code.getD "VERIFY_ISSUE" ++ ":" ++
          it.message.getD ""),
      vres := if vo.isEmpty then (none : Option String) else some vo.dumped,
      evVer := [Event.toolCall "llm.verify_structured", Event.toolResult "llm.verify_structured"] }
  else
    let t := env.verifyFreeform st.verify_attempts
    let ok := !looksLikeVerifyFailure t
    { verifierOk := ok,
      suggested := "revise_edits",
      issues3 := if ¬ok ∧ t ≠ "" ∧ t.length < 800 then [t] else [],
      vres := some t,
      evVer := [Event.toolCall "llm.verify_freeform", Event.toolResult "llm.verify_freeform"] }

/-- The VERIFY branch: structural checks, structured or legacy
verifier, and recovery dispatch. -/
def verifyPhase (env : EditEnv) (st0 : EditLoopState) : List Event × VerifyOut :=
  let st := { st0 with verify_attempts := st0.verify_attempts + 1 }
  let ev0 := [Event.decision "verify"]
  let r0 := tdUE st "verify" "in_progress"
  let st := { r0.1 with verification_issues := [] }
  let applied := pyOrVal st.applied_edits emptyEdits
  let pre := verifyChecks env st applied
  let vstep := verifyAgentStep env st
  let st := { st with verification_issues := pre ++ vstep.issues3,
                      verification_result := vstep.vres }
  let evAcc := ev0 ++ r0.2 ++ vstep.evVer
  if !st.verification_issues.isEmpty ∨ ¬vstep.verifierOk then
    let evFail := [Event.status "[Verifying] Issues found"]
    if ¬env.verify_recover_enabled then
      (evAcc ++ evFail ++ [Event.decision "backtrack_to_refine"],
       .next { st with applied_edits := none })
    else
      let evRec := [Event.decision "recover"]
      if vstep.suggested = "relocate" then
        (evAcc ++ evFail ++ evRec, .next (relocateRecovery st))
      else if vstep.suggested = "reload_context" then
        (evAcc ++ evFail ++ evRec, .next (reloadContextRecovery st))
      else if vstep.suggested = "revise_edits" ∧ env.hasReviseAgent then
        let revised := coerceResult (env.revise st.verify_attempts)
        let st := { st with applied_edits := some (pyOrVal revised applied) }
        (evAcc ++ evFail ++ evRec ++
           [Event.toolCall "llm.revise_edits", Event.toolResult "llm.revise_edits"],
         .next st)
      else
        let r1 := tdSweepE st
        (evAcc ++ evFail ++ evRec ++
           [Event.status "[Verifying] Cannot safely apply edits; aborting", Event.applyDone] ++
           r1.2,
         .done emptyEdits r1.1)
  else
    let r1 := tdUE st "verify" "done"
    (evAcc ++ [Event.status "[Verifying] Continuity check complete"] ++ r1.2, .pass r1.1)

/-- FINISH: the `apply_done` marker, the finish sweep, and the final
edit set. -/
def finishTail (st : EditLoopState) : List Event × EditOut :=
  let r0 := tdUE st "finish" "done"
  let r1 := tdSweepE r0.1
  (Event.applyDone :: r0.2 ++ r1.2, .done (pyOrVal st.applied_edits emptyEdits) r1.1)

/-- One execution of the `while` body of `run_edit_loop`. -/
def editBody (env : EditEnv) (b : EditLoopBudgets) (st0 : EditLoopState) :
    List Event × EditOut :=
  let st := { st0 with iterations := st0.iterations + 1 }
  if st.intent.isNone then planIntentPhase env st
  else if st.relevant_element_ids.isEmpty ∧ st.locate_attempts < b.max_locate_attempts then
    locatePhase env st
  else if st.loaded_context.isNone then loadContextPhase env st
  else if st.understanding.isNone then synthesizePhase env st
  else if st.proposed_edits.isNone then proposePhase env st
  else if st.applied_edits.isNone ∧ st.refine_attempts < b.max_refine_attempts then
    refinePhase env st
  else if st.verify_attempts < b.max_verify_attempts then
    match verifyPhase env st with
    | (evs, .next st') => (evs, .next st')
    | (evs, .done r st') => (evs, .done r st')
    | (evs, .pass st') =>
      let f := finishTail st'
      (evs ++ f.1, f.2)
  else
    finishTail st

structure EditRun where
  result : PyVal
  state : EditLoopState
  events : List Event
  produced : Bool

/-- The `while state.iterations < budgets.max_iterations` loop, with the
remaining iteration budget as fuel; the budget-exceeded exit performs
the real finish sweep. -/
def editLoopGo (env : EditEnv) (b : EditLoopBudgets) : Nat → EditLoopState → EditRun
  | 0, st =>
    let r := tdSweepE st
    { result := emptyEdits, state := r.1,
      events := Event.status "[Error] Exceeded iteration budget; no edits generated" :: r.2,
      produced := false }
  | fuel + 1, st =>
    match editBody env b st with
    | (evs, .done res st') => { result := res, state := st', events := evs, produced := true }
    | (evs, .next st') =>
      let r := editLoopGo env b fuel st'
      { r with events := evs ++ r.events }

/-- `run_edit_loop`. -/
def runEditLoop (env : EditEnv) (b : EditLoopBudgets) (st : EditLoopState) : EditRun :=
  let r := editLoopGo env b (b.max_iterations - st.iterations) st
  { r with events := (Event.status "[Start] Starting edit" ::
      (if env.globalIndex ≠ "" then [Event.status "[Index] Using global scene/character index"]
       else [])) ++ r.events }

end EditLoop

/-! ## Concrete scenario inputs used by witnesses and counterexamples -/

/-- Edit scenario: located edits verify-fail twice with `relocate`. -/
def relocateScenarioEnv : EditLoop.EditEnv :=
  { sceneContext := "CTX",
    planIntent := { intentField := some "tense up the diner scene", next_action := some "proceed" },
    searchTerms := fun _ => ["diner"],
    vectorSearch := fun _ => ["e1"],
    extractContext := fun _ _ => ("some context", ""),
    loadContextFallback := fun _ => "llm ctx",
    synthesize := fun _ => "understood",
    propose := fun _ => .dict [("edits", .list [.dict
      [("elementId", .str "e1"), ("elementType", .str "dialogue"),
       ("originalContent", .str "o"), ("newContent", .str "n")]])],
    refine := fun _ => .pynone,
    verify := fun _ => { okField := some false, suggested := some "relocate" } }

def relocateScenarioState : EditLoop.EditLoopState :=
  { user_prompt := "make the diner scene dialogue tenser", scene_context := "CTX" }

def relocateScenarioRun : EditLoop.EditRun :=
  EditLoop.runEditLoop relocateScenarioEnv {} relocateScenarioState

/-- Canonical-shape check for one coerced edit entry: a dict whose four
canonical fields are string-valued. -/
def isStrField (e : PyVal) (k : String) : Bool :=
  match pyGet e k with
  | some (.str _) => true
  | _ => false

def editEntryShape (e : PyVal) : Bool :=
  match e with
  | .dict _ => isStrField e "elementId" && isStrField e "elementType" &&
      isStrField e "originalContent" && isStrField e "newContent"
  | _ => false

/-- Canonical-shape check for an `EditResponse` value. -/
def editResponseShape (r : PyVal) : Bool :=
  match pyGet r "edits" with
  | some (.list es) => es.all editEntryShape
  | _ => false

/-- The two-tier parse described by the spec: attempt a strict parse,
then salvage the bracketed substring, else the empty default (list
form). -/
def specSalvageList (text : String) : List String :=
  match pyloads text with
  | some (.arr xs) => coerceStrList xs
  | _ =>
    match (salvageSlice text '[' ']').bind pyloads with
    | some (.arr xs) => coerceStrList xs
    | _ => []

/-- The two-tier parse described by the spec (dict form). -/
def specSalvageDict (text : String) : List (String × JVal) :=
  match pyloads text with
  | some (.obj fs) => fs
  | _ =>
    match (salvageSlice text '\x7b' '\x7d').bind pyloads with
    | some (.obj fs) => fs
    | _ => []

/-- Concrete model output with strict-parse noise around a JSON object. -/
def salvageDemoText : String := "reply: \x7b\"a\": \"b\"\x7d"

/-- Eleven distinct must-include ids (one more than the default
`rerank_select_max`). -/
def must11 : List String :=
  ["m1", "m2", "m3", "m4", "m5", "m6", "m7", "m8", "m9", "m10", "m11"]

def askMustPlan : AskLoop.AskPlanObj :=
  { next_action := some "proceed",
    coverage := some { must_include_element_ids := some must11 } }

/-- Ask scenario: the plan supplies eleven must-include element ids and
the reranker returns the empty selection. -/
def askMustEnv : AskLoop.AskEnv :=
  { planObj := some askMustPlan,
    searchTerms := fun _ => ["river"],
    vectorSearch := fun _ _ _ _ => ["x"],
    rerank := fun _ => { selectedElementIds := some ([] : List String) },
    extractContext := fun _ _ => ("ctx", ""),
    gate := fun _ => { grounded := some true },
    answer := "ans" }

def askMustState : AskLoop.AskLoopState :=
  { question := "q", scene_context := "SC" }

/-- Edit scenario: no store, the context-window LLM fallback never
finds ids, no caller anchors — locate attempts exhaust with zero ids,
then later phases still run and verification passes. -/
def locateExhaustEnv : EditLoop.EditEnv :=
  { hasDb := false, sceneContext := "CTX",
    planIntent := { intentField := some "do it", next_action := some "proceed" },
    searchTerms := fun _ => ["t"],
    loadContextFallback := fun _ => "llm ctx",
    synthesize := fun _ => "understood",
    propose := fun _ => .dict [("edits", .list [.dict
      [("elementId", .str "e1"), ("elementType", .str "dialogue"),
       ("originalContent", .str "o"), ("newContent", .str "n")]])],
    refine := fun _ => .pynone,
    verify := fun _ => { okField := some true } }

def locateExhaustState : EditLoop.EditLoopState :=
  { user_prompt := "p", scene_context := "CTX" }

/-- Mid-run edit state with an intent set and nothing located yet. -/
def locateNoCtxState : EditLoop.EditLoopState :=
  { user_prompt := "p", scene_context := "", intent := some "do it" }

/-- Environment with no store and no context window. -/
def locateNoCtxEnv : EditLoop.EditEnv :=
  { hasDb := false, sceneContext := "",
    planIntent := { intentField := some "do it", next_action := some "proceed" } }

/-! ### Observable todo status

`lastTodoStatus` reads the event stream as a UI would: the status shown
for a todo id is the one carried by the last `todo_update` event for
that id. -/

/-- Thread the last `todo_update` status for `tid` through an event
list, starting from `acc`. -/
def lastTodoAux (tid : String) : Option String → List Event → Option String
  | acc, [] => acc
  | acc, e :: evs =>
    lastTodoAux tid
      (match e with
       | .todoUpdate i s _ => if i = tid then some s else acc
       | _ => acc) evs

/-- The status carried by the last `todo_update` event for `tid`. -/
def lastTodoStatus (evs : List Event) (tid : String) : Option String :=
  lastTodoAux tid none evs

def noTodoEv : Event → Bool
  | .todoUpdate _ _ _ => false
  | _ => true

/-- The new events advance the recorded status map from `m` to `m'`:
after them, the map agrees with the observable per-id status. -/
def Advances (m : StatusMap) (new : List Event) (m' : StatusMap) : Prop :=
  ∀ tid, lookupStatus m' tid = lastTodoAux tid (lookupStatus m tid) new

/-- Well-formedness of normalized todos: stripped non-empty ids and
the initial `pending` status. -/
def WFTodos (todos : List Todo) : Prop :=
  ∀ t ∈ todos, pyStrip t.id = t.id ∧ t.id ≠ "" ∧ t.status = "pending"

/-- Every todo's recorded status is `done` or `skipped`. -/
def SweptMap (todos : List Todo) (m : StatusMap) : Prop :=
  ∀ t ∈ todos, lookupStatus m t.id = some "done" ∨ lookupStatus m t.id = some "skipped"

/-- State carried by an ask-loop body outcome. -/
def outStateA : AskLoop.AskOut → AskLoop.AskLoopState
  | .next st => st
  | .done _ st => st

/-- State carried by an edit-loop body outcome. -/
def outStateE : EditLoop.EditOut → EditLoop.EditLoopState
  | .next st => st
  | .done _ st => st

/-- State carried by a verify-phase outcome. -/
def outStateV : EditLoop.VerifyOut → EditLoop.EditLoopState
  | .next st => st
  | .done _ st => st
  | .pass st => st

/-- Terminal outcome discriminator for the ask loop body. -/
def isDoneA : AskLoop.AskOut → Bool
  | .next _ => false
  | .done _ _ => true

/-- Terminal outcome discriminator for the edit loop body. -/
def isDoneE : EditLoop.EditOut → Bool
  | .next _ => false
  | .done _ _ => true

/-- Terminal outcome discriminator for the verify phase. -/
def isDoneV : EditLoop.VerifyOut → Bool
  | .next _ => false
  | .done _ _ => true
  | .pass _ => false

/-- Todo bookkeeping contract of one ask-loop phase: well-formed todos
stay well-formed, a terminal outcome leaves every todo recorded `done`
or `skipped`, and todos stay empty while unemitted. -/
def TodoStepA (st : AskLoop.AskLoopState) (r : List Event × AskLoop.AskOut) : Prop :=
  (WFTodos st.todos → WFTodos (outStateA r.2).todos) ∧
  (WFTodos st.todos → isDoneA r.2 = true →
    SweptMap (outStateA r.2).todos (outStateA r.2).todo_status) ∧
  ((st.todos_emitted = false → st.todos = []) →
    (outStateA r.2).todos_emitted = false → (outStateA r.2).todos = [])

/-- Todo bookkeeping contract of one edit-loop phase. -/
def TodoStepE (st : EditLoop.EditLoopState) (r : List Event × EditLoop.EditOut) : Prop :=
  (WFTodos st.todos → WFTodos (outStateE r.2).todos) ∧
  (WFTodos st.todos → isDoneE r.2 = true →
    SweptMap (outStateE r.2).todos (outStateE r.2).todo_status)

/-- Todo bookkeeping contract of the verify phase. -/
def TodoStepV (st : EditLoop.EditLoopState) (r : List Event × EditLoop.VerifyOut) : Prop :=
  (WFTodos st.todos → WFTodos (outStateV r.2).todos) ∧
  (WFTodos st.todos → isDoneV r.2 = true →
    SweptMap (outStateV r.2).todos (outStateV r.2).todo_status)

/-! ## Theorems -/

/-! ### Phase bookkeeping: iteration and attempt counters -/

theorem retrieveFallbackTail_iter (env : AskLoop.AskEnv) (st : AskLoop.AskLoopState) :
    (outStateA (AskLoop.retrieveFallbackTail env st).2).iterations = st.iterations := rfl

theorem groundingTail_iter (env : AskLoop.AskEnv) (st : AskLoop.AskLoopState) :
    (outStateA (AskLoop.groundingTail env st).2).iterations = st.iterations := by
  unfold AskLoop.groundingTail AskLoop.tdU
  dsimp only
  repeat' split
  all_goals rfl

theorem retrieveWithDb_iter (env : AskLoop.AskEnv) (b : AskLoop.AskLoopBudgets)
    (st : AskLoop.AskLoopState) (broaden : Bool) (must variants : List String) :
    (outStateA (AskLoop.retrieveWithDb env b st broaden must variants).2).iterations =
      st.iterations := by
  unfold AskLoop.retrieveWithDb AskLoop.tdU
  dsimp only
  repeat' split
  all_goals first
    | rfl
    | exact (retrieveFallbackTail_iter _ _).trans rfl
    | exact (groundingTail_iter _ _).trans rfl

theorem retrieveMain_iter (env : AskLoop.AskEnv) (b : AskLoop.AskLoopBudgets)
    (st : AskLoop.AskLoopState) (broaden : Bool)
    (mustIds mustScene plannerVariants : List String) (evAcc : List Event) :
    (outStateA (AskLoop.retrieveMain env b st broaden mustIds mustScene plannerVariants
        evAcc).2).iterations = st.iterations := by
  unfold AskLoop.retrieveMain
  dsimp only
  repeat' split
  all_goals first
    | rfl
    | exact (retrieveFallbackTail_iter _ _).trans rfl
    | exact (retrieveWithDb_iter _ _ _ _ _ _).trans rfl

theorem retrievePhase_iter (env : AskLoop.AskEnv) (b : AskLoop.AskLoopBudgets)
    (st : AskLoop.AskLoopState) :
    (outStateA (AskLoop.retrievePhase env b st).2).iterations = st.iterations := by
  unfold AskLoop.retrievePhase AskLoop.tdU AskLoop.tdSweep
  dsimp only
  repeat' split
  all_goals first
    | rfl
    | exact (retrieveMain_iter _ _ _ _ _ _ _ _).trans rfl

theorem answerPhase_iter (env : AskLoop.AskEnv) (st : AskLoop.AskLoopState) :
    (outStateA (AskLoop.answerPhase env st).2).iterations = st.iterations := rfl

theorem askBody_iter (env : AskLoop.AskEnv) (b : AskLoop.AskLoopBudgets)
    (st : AskLoop.AskLoopState) :
    (outStateA (AskLoop.askBody env b st).2).iterations = st.iterations + 1 := by
  unfold AskLoop.askBody
  dsimp only
  split
  · exact (retrievePhase_iter _ _ _).trans rfl
  · exact (answerPhase_iter _ _).trans rfl

/-- Counters after one edit-loop phase, bundled. -/
theorem planIntentPhase_counters (env : EditLoop.EditEnv) (st : EditLoop.EditLoopState) :
    (outStateE (EditLoop.planIntentPhase env st).2).iterations = st.iterations ∧
    (outStateE (EditLoop.planIntentPhase env st).2).locate_attempts = st.locate_attempts ∧
    (outStateE (EditLoop.planIntentPhase env st).2).refine_attempts = st.refine_attempts ∧
    (outStateE (EditLoop.planIntentPhase env st).2).verify_attempts = st.verify_attempts := by
  unfold EditLoop.planIntentPhase EditLoop.tdUE EditLoop.tdSweepE
  dsimp only
  repeat' split
  all_goals exact ⟨rfl, rfl, rfl, rfl⟩

theorem locatePhase_counters (env : EditLoop.EditEnv) (st : EditLoop.EditLoopState) :
    (outStateE (EditLoop.locatePhase env st).2).iterations = st.iterations ∧
    (outStateE (EditLoop.locatePhase env st).2).locate_attempts = st.locate_attempts + 1 ∧
    (outStateE (EditLoop.locatePhase env st).2).refine_attempts = st.refine_attempts ∧
    (outStateE (EditLoop.locatePhase env st).2).verify_attempts = st.verify_attempts := by
  unfold EditLoop.locatePhase EditLoop.tdUE EditLoop.tdSweepE
  dsimp only
  repeat' split
  all_goals exact ⟨rfl, rfl, rfl, rfl⟩

theorem llmLoadTail_counters (env : EditLoop.EditEnv) (st : EditLoop.EditLoopState)
    (evAcc : List Event) :
    (outStateE (EditLoop.llmLoadTail env st evAcc).2).iterations = st.iterations ∧
    (outStateE (EditLoop.llmLoadTail env st evAcc).2).locate_attempts = st.locate_attempts ∧
    (outStateE (EditLoop.llmLoadTail env st evAcc).2).refine_attempts = st.refine_attempts ∧
    (outStateE (EditLoop.llmLoadTail env st evAcc).2).verify_attempts = st.verify_attempts :=
  ⟨rfl, rfl, rfl, rfl⟩

theorem loadContextPhase_counters (env : EditLoop.EditEnv) (st : EditLoop.EditLoopState) :
    (outStateE (EditLoop.loadContextPhase env st).2).iterations = st.iterations ∧
    (outStateE (EditLoop.loadContextPhase env st).2).locate_attempts = st.locate_attempts ∧
    (outStateE (EditLoop.loadContextPhase env st).2).refine_attempts = st.refine_attempts ∧
    (outStateE (EditLoop.loadContextPhase env st).2).verify_attempts = st.verify_attempts := by
  unfold EditLoop.loadContextPhase EditLoop.tdUE
  dsimp only
  repeat' split
  all_goals exact ⟨rfl, rfl, rfl, rfl⟩

theorem synthesizePhase_counters (env : EditLoop.EditEnv) (st : EditLoop.EditLoopState) :
    (outStateE (EditLoop.synthesizePhase env st).2).iterations = st.iterations ∧
    (outStateE (EditLoop.synthesizePhase env st).2).locate_attempts = st.locate_attempts ∧
    (outStateE (EditLoop.synthesizePhase env st).2).refine_attempts = st.refine_attempts ∧
    (outStateE (EditLoop.synthesizePhase env st).2).verify_attempts = st.verify_attempts :=
  ⟨rfl, rfl, rfl, rfl⟩

theorem proposePhase_counters (env : EditLoop.EditEnv) (st : EditLoop.EditLoopState) :
    (outStateE (EditLoop.proposePhase env st).2).iterations = st.iterations ∧
    (outStateE (EditLoop.proposePhase env st).2).locate_attempts = st.locate_attempts ∧
    (outStateE (EditLoop.proposePhase env st).2).refine_attempts = st.refine_attempts ∧
    (outStateE (EditLoop.proposePhase env st).2).verify_attempts = st.verify_attempts :=
  ⟨rfl, rfl, rfl, rfl⟩

theorem refinePhase_counters (env : EditLoop.EditEnv) (st : EditLoop.EditLoopState) :
    (outStateE (EditLoop.refinePhase env st).2).iterations = st.iterations ∧
    (outStateE (EditLoop.refinePhase env st).2).locate_attempts = st.locate_attempts ∧
    (outStateE (EditLoop.refinePhase env st).2).refine_attempts = st.refine_attempts + 1 ∧
    (outStateE (EditLoop.refinePhase env st).2).verify_attempts = st.verify_attempts := by
  unfold EditLoop.refinePhase EditLoop.tdUE
  dsimp only
  repeat' split
  all_goals exact ⟨rfl, rfl, rfl, rfl⟩

theorem verifyPhase_counters (env : EditLoop.EditEnv) (st : EditLoop.EditLoopState) :
    (outStateV (EditLoop.verifyPhase env st).2).iterations = st.iterations ∧
    (outStateV (EditLoop.verifyPhase env st).2).locate_attempts = st.locate_attempts ∧
    (outStateV (EditLoop.verifyPhase env st).2).refine_attempts = st.refine_attempts ∧
    (outStateV (EditLoop.verifyPhase env st).2).verify_attempts = st.verify_attempts + 1 := by
  unfold EditLoop.verifyPhase EditLoop.tdUE EditLoop.tdSweepE EditLoop.relocateRecovery
    EditLoop.reloadContextRecovery
  dsimp only
  repeat' split
  all_goals exact ⟨rfl, rfl, rfl, rfl⟩

theorem finishTail_counters (st : EditLoop.EditLoopState) :
    (outStateE (EditLoop.finishTail st).2).iterations = st.iterations ∧
    (outStateE (EditLoop.finishTail st).2).locate_attempts = st.locate_attempts ∧
    (outStateE (EditLoop.finishTail st).2).refine_attempts = st.refine_attempts ∧
    (outStateE (EditLoop.finishTail st).2).verify_attempts = st.verify_attempts :=
  ⟨rfl, rfl, rfl, rfl⟩

/-- One edit-loop body execution: the iteration counter advances by
exactly one, and each per-phase attempt counter is monotone, advances
by at most one, and is left unchanged once it has reached its cap. -/
theorem editBody_counters (env : EditLoop.EditEnv) (b : EditLoop.EditLoopBudgets)
    (st : EditLoop.EditLoopState) :
    (outStateE (EditLoop.editBody env b st).2).iterations = st.iterations + 1 ∧
    (st.locate_attempts ≤ (outStateE (EditLoop.editBody env b st).2).locate_attempts ∧
      (outStateE (EditLoop.editBody env b st).2).locate_attempts ≤ st.locate_attempts + 1 ∧
      (b.max_locate_attempts ≤ st.locate_attempts →
        (outStateE (EditLoop.editBody env b st).2).locate_attempts = st.locate_attempts)) ∧
    (st.refine_attempts ≤ (outStateE (EditLoop.editBody env b st).2).refine_attempts ∧
      (outStateE (EditLoop.editBody env b st).2).refine_attempts ≤ st.refine_attempts + 1 ∧
      (b.max_refine_attempts ≤ st.refine_attempts →
        (outStateE (EditLoop.editBody env b st).2).refine_attempts = st.refine_attempts)) ∧
    (st.verify_attempts ≤ (outStateE (EditLoop.editBody env b st).2).verify_attempts ∧
      (outStateE (EditLoop.editBody env b st).2).verify_attempts ≤ st.verify_attempts + 1 ∧
      (b.max_verify_attempts ≤ st.verify_attempts →
        (outStateE (EditLoop.editBody env b st).2).verify_attempts = st.verify_attempts)) := by
  unfold EditLoop.editBody
  dsimp only
  split
  · obtain ⟨h1, h2, h3, h4⟩ := planIntentPhase_counters env _
    rw [h1, h2, h3, h4]
    dsimp only
    omega
  · split
    · rename_i hco
      obtain ⟨h1, h2, h3, h4⟩ := locatePhase_counters env _
      rw [h1, h2, h3, h4]
      dsimp only
      obtain ⟨-, hlt⟩ := hco
      omega
    · split
      · obtain ⟨h1, h2, h3, h4⟩ := loadContextPhase_counters env _
        rw [h1, h2, h3, h4]
        dsimp only
        omega
      · split
        · obtain ⟨h1, h2, h3, h4⟩ := synthesizePhase_counters env _
          rw [h1, h2, h3, h4]
          dsimp only
          omega
        · split
          · obtain ⟨h1, h2, h3, h4⟩ := proposePhase_counters env _
            rw [h1, h2, h3, h4]
            dsimp only
            omega
          · split
            · rename_i hra
              obtain ⟨h1, h2, h3, h4⟩ := refinePhase_counters env _
              rw [h1, h2, h3, h4]
              dsimp only
              obtain ⟨-, hrt⟩ := hra
              omega
            · split
              · rename_i hvt
                obtain ⟨h1, h2, h3, h4⟩ := verifyPhase_counters env _
                split
                · rename_i evs st' heq
                  rw [heq] at h1 h2 h3 h4
                  dsimp only [outStateV] at h1 h2 h3 h4
                  dsimp only [outStateE]
                  rw [h1, h2, h3, h4]
                  try dsimp only
                  omega
                · rename_i evs r st' heq
                  rw [heq] at h1 h2 h3 h4
                  dsimp only [outStateV] at h1 h2 h3 h4
                  dsimp only [outStateE]
                  rw [h1, h2, h3, h4]
                  try dsimp only
                  omega
                · rename_i evs st' heq
                  rw [heq] at h1 h2 h3 h4
                  dsimp only [outStateV] at h1 h2 h3 h4
                  obtain ⟨g1, g2, g3, g4⟩ := finishTail_counters st'
                  dsimp only [outStateE] at g1 g2 g3 g4 ⊢
                  rw [g1, g2, g3, g4, h1, h2, h3, h4]
                  try dsimp only
                  omega
              · obtain ⟨g1, g2, g3, g4⟩ := finishTail_counters _
                rw [g1, g2, g3, g4]
                dsimp only
                omega

/-- Iteration bound and budget-exhaustion fallback for the ask loop. -/
theorem askLoopGo_props (env : AskLoop.AskEnv) (b : AskLoop.AskLoopBudgets) :
    ∀ (fuel : Nat) (st : AskLoop.AskLoopState),
    ((AskLoop.askLoopGo env b fuel st).produced = false →
      (AskLoop.askLoopGo env b fuel st).answer = AskLoop.iterationBudgetMessage) ∧
    (AskLoop.askLoopGo env b fuel st).state.iterations ≤ st.iterations + fuel := by
  intro fuel
  induction fuel with
  | zero =>
    intro st
    exact ⟨fun _ => rfl, Nat.le_of_eq rfl⟩
  | succ n ih =>
    intro st
    have hb := askBody_iter env b st
    unfold AskLoop.askLoopGo
    cases hab : AskLoop.askBody env b st with
    | mk evs out =>
      rw [hab] at hb
      cases out with
      | done a st' =>
        dsimp only [outStateA] at hb
        dsimp only
        exact ⟨fun h => absurd h (by simp), by omega⟩
      | next st' =>
        dsimp only [outStateA] at hb
        dsimp only
        obtain ⟨ih1, ih2⟩ := ih st'
        exact ⟨ih1, by omega⟩

/-- Iteration bound, counter bounds, counter monotonicity and the
budget-exhaustion fallback for the edit loop. -/
theorem editLoopGo_props (env : EditLoop.EditEnv) (b : EditLoop.EditLoopBudgets) :
    ∀ (fuel : Nat) (st : EditLoop.EditLoopState),
    ((EditLoop.editLoopGo env b fuel st).produced = false →
      (EditLoop.editLoopGo env b fuel st).result = EditLoop.emptyEdits) ∧
    (EditLoop.editLoopGo env b fuel st).state.iterations ≤ st.iterations + fuel ∧
    st.locate_attempts ≤ (EditLoop.editLoopGo env b fuel st).state.locate_attempts ∧
    (st.locate_attempts ≤ b.max_locate_attempts →
      (EditLoop.editLoopGo env b fuel st).state.locate_attempts ≤ b.max_locate_attempts) ∧
    st.refine_attempts ≤ (EditLoop.editLoopGo env b fuel st).state.refine_attempts ∧
    (st.refine_attempts ≤ b.max_refine_attempts →
      (EditLoop.editLoopGo env b fuel st).state.refine_attempts ≤ b.max_refine_attempts) ∧
    st.verify_attempts ≤ (EditLoop.editLoopGo env b fuel st).state.verify_attempts ∧
    (st.verify_attempts ≤ b.max_verify_attempts →
      (EditLoop.editLoopGo env b fuel st).state.verify_attempts ≤ b.max_verify_attempts) := by
  intro fuel
  induction fuel with
  | zero =>
    intro st
    refine ⟨fun _ => rfl, ?_, ?_, ?_, ?_, ?_, ?_, ?_⟩ <;> simp [EditLoop.editLoopGo,
      EditLoop.tdSweepE]
  | succ n ih =>
    intro st
    have hb := editBody_counters env b st
    unfold EditLoop.editLoopGo
    cases hab : EditLoop.editBody env b st with
    | mk evs out =>
      rw [hab] at hb
      cases out with
      | done r st' =>
        dsimp only [outStateE] at hb
        dsimp only
        obtain ⟨hi, ⟨hl1, hl2, hl3⟩, ⟨hr1, hr2, hr3⟩, ⟨hv1, hv2, hv3⟩⟩ := hb
        refine ⟨fun h => absurd h (by simp), by omega, by omega, ?_, by omega, ?_, by omega, ?_⟩
        · intro hle
          rcases Nat.lt_or_ge st.locate_attempts b.max_locate_attempts with h | h
          · omega
          · rw [hl3 h]; exact hle
        · intro hle
          rcases Nat.lt_or_ge st.refine_attempts b.max_refine_attempts with h | h
          · omega
          · rw [hr3 h]; exact hle
        · intro hle
          rcases Nat.lt_or_ge st.verify_attempts b.max_verify_attempts with h | h
          · omega
          · rw [hv3 h]; exact hle
      | next st' =>
        dsimp only [outStateE] at hb
        dsimp only
        obtain ⟨hi, ⟨hl1, hl2, hl3⟩, ⟨hr1, hr2, hr3⟩, ⟨hv1, hv2, hv3⟩⟩ := hb
        obtain ⟨ih1, ih2, ih3, ih4, ih5, ih6, ih7, ih8⟩ := ih st'
        refine ⟨ih1, by omega, by omega, ?_, by omega, ?_, by omega, ?_⟩
        · intro hle
          refine ih4 ?_
          rcases Nat.lt_or_ge st.locate_attempts b.max_locate_attempts with h | h
          · omega
          · rw [hl3 h]; exact hle
        · intro hle
          refine ih6 ?_
          rcases Nat.lt_or_ge st.refine_attempts b.max_refine_attempts with h | h
          · omega
          · rw [hr3 h]; exact hle
        · intro hle
          refine ih8 ?_
          rcases Nat.lt_or_ge st.verify_attempts b.max_verify_attempts with h | h
          · omega
          · rw [hv3 h]; exact hle

/-- C1: both loops execute their body at most `max_iterations` times
(the iteration counter, advanced exactly once per body execution,
never exceeds the budget for any collaborator behaviour), and when the
budget is exhausted before an answer or edit set is produced the run
terminates normally with the defined fallback: the fixed explanatory
message for the Ask Loop and the empty edit set for the Edit Loop.
Totality of the embedded run functions models the absence of
exceptions on this path. -/
theorem iteration_budget_safety :
    (∀ (env : AskLoop.AskEnv) (b : AskLoop.AskLoopBudgets) (st : AskLoop.AskLoopState),
      st.iterations = 0 →
      (AskLoop.runAskLoop env b st).state.iterations ≤ b.max_iterations ∧
      ((AskLoop.runAskLoop env b st).produced = false →
        (AskLoop.runAskLoop env b st).answer = AskLoop.iterationBudgetMessage)) ∧
    (∀ (env : EditLoop.EditEnv) (b : EditLoop.EditLoopBudgets) (st : EditLoop.EditLoopState),
      st.iterations = 0 →
      (EditLoop.runEditLoop env b st).state.iterations ≤ b.max_iterations ∧
      ((EditLoop.runEditLoop env b st).produced = false →
        (EditLoop.runEditLoop env b st).result = EditLoop.emptyEdits)) := by
  constructor
  · intro env b st h0
    obtain ⟨h1, h2⟩ := askLoopGo_props env b (b.max_iterations - st.iterations) st
    constructor
    · have : (AskLoop.runAskLoop env b st).state =
          (AskLoop.askLoopGo env b (b.max_iterations - st.iterations) st).state := rfl
      rw [this]
      omega
    · intro h
      exact h1 h
  · intro env b st h0
    obtain ⟨h1, h2, -⟩ := editLoopGo_props env b (b.max_iterations - st.iterations) st
    constructor
    · have : (EditLoop.runEditLoop env b st).state =
          (EditLoop.editLoopGo env b (b.max_iterations - st.iterations) st).state := rfl
      rw [this]
      omega
    · intro h
      exact h1 h

/-- Witness for C1 on concrete default environments. -/
theorem iteration_budget_safety_witness :
    ((AskLoop.runAskLoop {} {} { question := "q", scene_context := "" }).state.iterations ≤
        ({} : AskLoop.AskLoopBudgets).max_iterations ∧
      ((AskLoop.runAskLoop {} {} { question := "q", scene_context := "" }).produced = false →
        (AskLoop.runAskLoop {} {} { question := "q", scene_context := "" }).answer =
          AskLoop.iterationBudgetMessage)) ∧
    ((EditLoop.runEditLoop {} {} { user_prompt := "p", scene_context := "" }).state.iterations ≤
        ({} : EditLoop.EditLoopBudgets).max_iterations ∧
      ((EditLoop.runEditLoop {} {} { user_prompt := "p", scene_context := "" }).produced = false →
        (EditLoop.runEditLoop {} {} { user_prompt := "p", scene_context := "" }).result =
          EditLoop.emptyEdits)) :=
  ⟨iteration_budget_safety.1 {} {} { question := "q", scene_context := "" } rfl,
   iteration_budget_safety.2 {} {} { user_prompt := "p", scene_context := "" } rfl⟩

/-- C10: the per-phase attempt counters of the Edit Loop are never
reset by any transition, including the recovery strategies: over one
body execution each of `locate_attempts`, `refine_attempts` and
`verify_attempts` is monotone non-decreasing, advances by at most one,
and stays unchanged once it has reached its cap (the phase is skipped
rather than re-attempted); consequently over a whole run from fresh
state each counter never exceeds its cap, bounding the total number of
attempts of that phase across the run. -/
theorem attempt_counters_no_reset :
    (∀ (env : EditLoop.EditEnv) (b : EditLoop.EditLoopBudgets) (st : EditLoop.EditLoopState),
      (st.locate_attempts ≤ (outStateE (EditLoop.editBody env b st).2).locate_attempts ∧
        (outStateE (EditLoop.editBody env b st).2).locate_attempts ≤ st.locate_attempts + 1 ∧
        (b.max_locate_attempts ≤ st.locate_attempts →
          (outStateE (EditLoop.editBody env b st).2).locate_attempts = st.locate_attempts)) ∧
      (st.refine_attempts ≤ (outStateE (EditLoop.editBody env b st).2).refine_attempts ∧
        (outStateE (EditLoop.editBody env b st).2).refine_attempts ≤ st.refine_attempts + 1 ∧
        (b.max_refine_attempts ≤ st.refine_attempts →
          (outStateE (EditLoop.editBody env b st).2).refine_attempts = st.refine_attempts)) ∧
      (st.verify_attempts ≤ (outStateE (EditLoop.editBody env b st).2).verify_attempts ∧
        (outStateE (EditLoop.editBody env b st).2).verify_attempts ≤ st.verify_attempts + 1 ∧
        (b.max_verify_attempts ≤ st.verify_attempts →
          (outStateE (EditLoop.editBody env b st).2).verify_attempts = st.verify_attempts))) ∧
    (∀ (env : EditLoop.EditEnv) (b : EditLoop.EditLoopBudgets) (st : EditLoop.EditLoopState),
      st.locate_attempts = 0 → st.refine_attempts = 0 → st.verify_attempts = 0 →
      (EditLoop.runEditLoop env b st).state.locate_attempts ≤ b.max_locate_attempts ∧
      (EditLoop.runEditLoop env b st).state.refine_attempts ≤ b.max_refine_attempts ∧
      (EditLoop.runEditLoop env b st).state.verify_attempts ≤ b.max_verify_attempts) := by
  constructor
  · intro env b st
    exact (editBody_counters env b st).2
  · intro env b st hl hr hv
    obtain ⟨-, -, -, h4, -, h6, -, h8⟩ :=
      editLoopGo_props env b (b.max_iterations - st.iterations) st
    have hst : (EditLoop.runEditLoop env b st).state =
        (EditLoop.editLoopGo env b (b.max_iterations - st.iterations) st).state := rfl
    rw [hst]
    exact ⟨h4 (by omega), h6 (by omega), h8 (by omega)⟩

/-- Witness for C10 on the concrete recovery scenario run. -/
theorem attempt_counters_no_reset_witness :
    (EditLoop.runEditLoop relocateScenarioEnv {} relocateScenarioState).state.locate_attempts ≤
      ({} : EditLoop.EditLoopBudgets).max_locate_attempts ∧
    (EditLoop.runEditLoop relocateScenarioEnv {} relocateScenarioState).state.refine_attempts ≤
      ({} : EditLoop.EditLoopBudgets).max_refine_attempts ∧
    (EditLoop.runEditLoop relocateScenarioEnv {} relocateScenarioState).state.verify_attempts ≤
      ({} : EditLoop.EditLoopBudgets).max_verify_attempts :=
  attempt_counters_no_reset.2 relocateScenarioEnv {} relocateScenarioState rfl rfl rfl

/-- The LOCATE branch terminates the run with the empty edit set and
the guidance message when retrieval finds nothing and no context
window is available. -/
theorem locatePhase_no_context_terminal (env : EditLoop.EditEnv) (st : EditLoop.EditLoopState)
    (hscene : env.sceneContext = "")
    (hsearch : env.hasDb = true →
      env.searchTerms (st.locate_attempts + 1) = [] ∨
      (env.vectorSearch (st.locate_attempts + 1) = [] ∧
       env.dbSearch (st.locate_attempts + 1) = [])) :
    ∃ evs st', EditLoop.locatePhase env st = (evs, .done EditLoop.emptyEdits st') ∧
      Event.status EditLoop.locateGuidanceMsg ∈ evs := by
  unfold EditLoop.locatePhase EditLoop.tdUE EditLoop.tdSweepE
  dsimp only
  by_cases hdb : env.hasDb = true ∧
      (!(env.searchTerms (st.locate_attempts + 1)).isEmpty) = true
  · rcases hsearch hdb.1 with hterms | ⟨hvec, hdbs⟩
    · rw [hterms] at hdb
      simp at hdb
    · rw [if_pos hdb, hvec]
      simp only [List.isEmpty_nil, if_true, ite_true, hdbs]
      rw [if_neg (by simp), if_neg (by simp [hscene])]
      exact ⟨_, _, rfl, by simp⟩
  · rw [if_neg hdb]
    rw [if_neg (by simp)]
    rw [if_neg (by simp [hscene])]
    exact ⟨_, _, rfl, by simp⟩

/-- C4 (amended): the guidance-message terminal return of the LOCATE
phase fires when a locate attempt finds no ids through the store and
`deps.scene_context` is empty — on that path `run_edit_loop`'s body
returns `{"edits": []}` together with the guidance status event.  With
a context window present, exhausting the locate attempts with zero ids
does not terminate the run (see the counterexample run, which proceeds
to LOAD_CONTEXT and returns a non-empty edit set). -/
theorem locate_no_context_terminal (env : EditLoop.EditEnv) (b : EditLoop.EditLoopBudgets)
    (st : EditLoop.EditLoopState)
    (hintent : st.intent.isNone = false)
    (hids : st.relevant_element_ids = [])
    (hatt : st.locate_attempts < b.max_locate_attempts)
    (hscene : env.sceneContext = "")
    (hsearch : env.hasDb = true →
      env.searchTerms (st.locate_attempts + 1) = [] ∨
      (env.vectorSearch (st.locate_attempts + 1) = [] ∧
       env.dbSearch (st.locate_attempts + 1) = [])) :
    ∃ evs st', EditLoop.editBody env b st = (evs, .done EditLoop.emptyEdits st') ∧
      Event.status EditLoop.locateGuidanceMsg ∈ evs := by
  unfold EditLoop.editBody
  dsimp only
  rw [if_neg (by simp [hintent])]
  rw [if_pos ⟨by simp [hids], by simpa using hatt⟩]
  exact locatePhase_no_context_terminal env _ hscene hsearch

/-- Witness for C4 at a concrete no-store, no-window state. -/
theorem locate_no_context_terminal_witness :
    ∃ evs st', EditLoop.editBody locateNoCtxEnv {} locateNoCtxState =
      (evs, .done EditLoop.emptyEdits st') ∧
      Event.status EditLoop.locateGuidanceMsg ∈ evs :=
  locate_no_context_terminal locateNoCtxEnv {} locateNoCtxState rfl rfl (by decide) rfl
    (fun h => absurd h (by decide))

/-- C4 counterexample: with a context window present, a run that
exhausts all three locate attempts with zero located ids is not
terminal — it falls through to LOAD_CONTEXT via the LLM fallback and
here returns an edit set with one edit, not `{"edits": []}`. -/
theorem locate_exhausted_not_terminal_cex :
    (EditLoop.runEditLoop locateExhaustEnv {} locateExhaustState).state.locate_attempts =
      ({} : EditLoop.EditLoopBudgets).max_locate_attempts ∧
    (EditLoop.runEditLoop locateExhaustEnv {} locateExhaustState).state.relevant_element_ids
      = [] ∧
    (pyGetList (EditLoop.runEditLoop locateExhaustEnv {} locateExhaustState).result
      "edits").length = 1 ∧
    (EditLoop.runEditLoop locateExhaustEnv {} locateExhaustState).result ≠
      EditLoop.emptyEdits := by
  refine ⟨rfl, rfl, rfl, ?_⟩
  intro h
  exact absurd (congrArg (fun r => (pyGetList r "edits").length) h) (by decide)

/-! ### Event/status synchronisation kit (for the exit-sweep claim)

`Advances m new m'` states that the block of events `new` moves the
recorded-status view from map `m` to map `m'`; chaining it along a run
shows the status map always agrees with the observable (last-event)
status of each todo id. -/

theorem lastTodoAux_append (tid : String) (a : List Event) :
    ∀ (acc : Option String) (b : List Event),
    lastTodoAux tid acc (a ++ b) = lastTodoAux tid (lastTodoAux tid acc a) b := by
  induction a with
  | nil => intro acc b; rfl
  | cons e a ih => intro acc b; exact ih _ b

theorem lastTodoAux_all_noTodo (tid : String) :
    ∀ (evs : List Event) (acc : Option String), evs.all noTodoEv = true →
    lastTodoAux tid acc evs = acc := by
  intro evs
  induction evs with
  | nil => intro acc _; rfl
  | cons e evs ih =>
    intro acc h
    rw [List.all_cons, Bool.and_eq_true] at h
    cases e with
    | todoUpdate i s l => simp [noTodoEv] at h
    | status m => exact ih acc h.2
    | decision a => exact ih acc h.2
    | toolCall a => exact ih acc h.2
    | toolResult a => exact ih acc h.2
    | planTodos a => exact ih acc h.2
    | applyStarted a => exact ih acc h.2
    | applyDone => exact ih acc h.2

theorem advances_nil (m : StatusMap) : Advances m [] m := fun _ => rfl

theorem advances_append {m m₁ m₂ : StatusMap} {a b : List Event}
    (h₁ : Advances m a m₁) (h₂ : Advances m₁ b m₂) : Advances m (a ++ b) m₂ := by
  intro tid
  rw [lastTodoAux_append tid a, ← h₁ tid]
  exact h₂ tid

theorem advances_noTodo (m : StatusMap) (a : List Event) (ha : a.all noTodoEv = true) :
    Advances m a m := by
  intro tid
  rw [lastTodoAux_all_noTodo tid a _ ha]

theorem advances_noTodo_left {m m' : StatusMap} {b : List Event} (a : List Event)
    (ha : a.all noTodoEv = true) (h : Advances m b m') : Advances m (a ++ b) m' :=
  advances_append (advances_noTodo m a ha) h

theorem lookupStatus_setStatus (m : StatusMap) (k v k' : String) :
    lookupStatus (setStatus m k v) k' = if k' = k then some v else lookupStatus m k' := by
  induction m with
  | nil =>
    unfold setStatus lookupStatus
    by_cases h : k' = k
    · subst h
      rw [List.find?_cons_of_pos _ (by simp)]
      simp
    · rw [List.find?_cons_of_neg _ (by simp; exact fun hh => h hh.symm)]
      simp [h]
  | cons p rest ih =>
    rcases p with ⟨a, b⟩
    rw [setStatus]
    by_cases h1 : (a == k) = true
    · rw [if_pos h1]
      have hak : a = k := by simpa using h1
      by_cases h2 : k' = k
      · subst h2
        simp [lookupStatus, List.find?_cons]
      · have hk2 : (k == k') = false := by
          simp only [beq_eq_false_iff_ne]
          exact fun hh => h2 hh.symm
        have ha2 : (a == k') = false := by rw [hak]; exact hk2
        simp [lookupStatus, List.find?_cons, hk2, ha2, h2]
    · rw [if_neg h1]
      by_cases h2 : (a == k') = true
      · have hak : a = k' := by simpa using h2
        have hkk : ¬ (k' = k) := fun hh => h1 (by simp [hak, hh])
        simp [lookupStatus, List.find?_cons, h2, hkk]
      · have ha2 : (a == k') = false := by
          cases hb : (a == k') with
          | true => exact absurd hb h2
          | false => rfl
        simp only [lookupStatus, List.find?_cons, ha2]
        simpa [lookupStatus] using ih

theorem advances_update (todos : List Todo) (m : StatusMap) (i s : String) :
    Advances m (todoUpdateCore todos m i s).2 (todoUpdateCore todos m i s).1 := by
  unfold todoUpdateCore
  by_cases h1 : pyStrip i = "" ∨ pyStrip s = ""
  · simp only [h1, ite_true]
    exact advances_nil m
  · simp only [h1, ite_false]
    by_cases h2 : lookupStatus m (pyStrip i) = some (pyStrip s)
    · simp only [h2, ite_true]
      exact advances_nil m
    · simp only [h2, ite_false]
      intro tid
      by_cases h3 : pyStrip i = tid
      · simp [lookupStatus_setStatus, lastTodoAux, h3]
      · simp [lookupStatus_setStatus, lastTodoAux, h3, Ne.symm h3]

theorem sweep_go_adv (todos : List Todo) :
    ∀ (l : List Todo) (m : StatusMap) (evs : List Event) (m0 : StatusMap),
    Advances m0 evs m →
    Advances m0 (l.foldl (sweepStep todos) (m, evs)).2 (l.foldl (sweepStep todos) (m, evs)).1 := by
  intro l
  induction l with
  | nil => intro m evs m0 h; exact h
  | cons t ts ih =>
    intro m evs m0 h
    rw [List.foldl_cons]
    unfold sweepStep
    dsimp only
    by_cases h1 : pyStrip t.id = ""
    · rw [if_pos h1]
      exact ih m evs m0 h
    · rw [if_neg h1]
      by_cases h2 : pyOrS (lookupStatus m (pyStrip t.id))
          (if t.status = "" then "pending" else t.status) = "done" ∨
          pyOrS (lookupStatus m (pyStrip t.id))
            (if t.status = "" then "pending" else t.status) = "skipped"
      · rw [if_pos h2]
        exact ih m evs m0 h
      · rw [if_neg h2]
        exact ih _ _ m0 (advances_append h (advances_update todos m (pyStrip t.id) "skipped"))

theorem advances_sweep (todos : List Todo) (m : StatusMap) :
    Advances m (todoFinishSweepCore todos m).2 (todoFinishSweepCore todos m).1 :=
  sweep_go_adv todos todos m [] m (advances_nil m)

theorem lookup_update_preserves (todos : List Todo) (m : StatusMap) (i s tid : String)
    (hs : pyStrip s = "skipped")
    (h : lookupStatus m tid = some "done" ∨ lookupStatus m tid = some "skipped") :
    lookupStatus (todoUpdateCore todos m i s).1 tid = some "done" ∨
    lookupStatus (todoUpdateCore todos m i s).1 tid = some "skipped" := by
  unfold todoUpdateCore
  by_cases h1 : pyStrip i = "" ∨ pyStrip s = ""
  · simpa [h1] using h
  · simp only [h1, ite_false]
    by_cases h2 : lookupStatus m (pyStrip i) = some (pyStrip s)
    · simpa [h2] using h
    · simp only [h2, ite_false]
      rw [lookupStatus_setStatus]
      by_cases h3 : tid = pyStrip i
      · rw [if_pos h3, hs]
        right; rfl
      · rw [if_neg h3]
        exact h

theorem sweepStep_preserves (todos : List Todo) (acc : StatusMap × List Event) (t : Todo)
    (tid : String)
    (h : lookupStatus acc.1 tid = some "done" ∨ lookupStatus acc.1 tid = some "skipped") :
    lookupStatus (sweepStep todos acc t).1 tid = some "done" ∨
    lookupStatus (sweepStep todos acc t).1 tid = some "skipped" := by
  unfold sweepStep
  dsimp only
  by_cases h1 : pyStrip t.id = ""
  · simpa [h1] using h
  · rw [if_neg h1]
    by_cases h2 : pyOrS (lookupStatus acc.1 (pyStrip t.id))
        (if t.status = "" then "pending" else t.status) = "done" ∨
        pyOrS (lookupStatus acc.1 (pyStrip t.id))
          (if t.status = "" then "pending" else t.status) = "skipped"
    · simpa [h2] using h
    · rw [if_neg h2]
      exact lookup_update_preserves todos acc.1 (pyStrip t.id) "skipped" tid rfl h

theorem sweep_fold_preserves (todos : List Todo) :
    ∀ (l : List Todo) (acc : StatusMap × List Event) (tid : String),
    (lookupStatus acc.1 tid = some "done" ∨ lookupStatus acc.1 tid = some "skipped") →
    lookupStatus (l.foldl (sweepStep todos) acc).1 tid = some "done" ∨
    lookupStatus (l.foldl (sweepStep todos) acc).1 tid = some "skipped" := by
  intro l
  induction l with
  | nil => intro acc tid h; exact h
  | cons t ts ih =>
    intro acc tid h
    rw [List.foldl_cons]
    exact ih _ tid (sweepStep_preserves todos acc t tid h)

theorem sweepStep_achieves (todos : List Todo) (acc : StatusMap × List Event) (t : Todo)
    (hid : pyStrip t.id = t.id) (hne : t.id ≠ "") (hst : t.status = "pending") :
    lookupStatus (sweepStep todos acc t).1 t.id = some "done" ∨
    lookupStatus (sweepStep todos acc t).1 t.id = some "skipped" := by
  unfold sweepStep
  dsimp only
  rw [hid, if_neg hne, hst]
  by_cases h2 : pyOrS (lookupStatus acc.1 t.id) (if ("pending" : String) = "" then "pending"
      else "pending") = "done" ∨
      pyOrS (lookupStatus acc.1 t.id) (if ("pending" : String) = "" then "pending"
        else "pending") = "skipped"
  · rw [if_pos h2]
    have hp : (if ("pending" : String) = "" then "pending" else "pending") = "pending" := by
      simp
    rw [hp] at h2
    cases hl : lookupStatus acc.1 t.id with
    | none =>
      rw [hl] at h2
      simp only [pyOrS] at h2
      rcases h2 with h2 | h2 <;> exact absurd h2 (by decide)
    | some v =>
      rw [hl] at h2
      simp only [pyOrS] at h2
      by_cases hv : v = ""
      · rw [if_pos hv] at h2
        rcases h2 with h2 | h2 <;> exact absurd h2 (by decide)
      · rw [if_neg hv] at h2
        rcases h2 with h2 | h2
        · left; rw [h2]
        · right; rw [h2]
  · rw [if_neg h2]
    unfold todoUpdateCore
    rw [hid]
    have hsk : pyStrip "skipped" = "skipped" := rfl
    rw [hsk]
    rw [if_neg (by simp [hne])]
    by_cases h3 : lookupStatus acc.1 t.id = some "skipped"
    · rw [if_pos h3]
      right; exact h3
    · rw [if_neg h3]
      right
      rw [lookupStatus_setStatus, if_pos rfl]

theorem sweep_go_post (todos : List Todo) :
    ∀ (l : List Todo), (∀ t ∈ l, pyStrip t.id = t.id ∧ t.id ≠ "" ∧ t.status = "pending") →
    ∀ (acc : StatusMap × List Event) (t : Todo), t ∈ l →
    lookupStatus ((l.foldl (sweepStep todos) acc).1) t.id = some "done" ∨
    lookupStatus ((l.foldl (sweepStep todos) acc).1) t.id = some "skipped" := by
  intro l
  induction l with
  | nil => intro _ _ t ht; exact absurd ht (by simp)
  | cons u ts ih =>
    intro hW acc t ht
    rw [List.foldl_cons]
    rcases List.mem_cons.mp ht with he | hts
    · subst he
      obtain ⟨h1, h2, h3⟩ := hW t (by simp)
      exact sweep_fold_preserves todos ts _ t.id (sweepStep_achieves todos acc t h1 h2 h3)
    · exact ih (fun x hx => hW x (List.mem_cons_of_mem _ hx)) _ t hts

theorem sweep_post (todos : List Todo) (m : StatusMap) (hW : WFTodos todos) :
    SweptMap todos (todoFinishSweepCore todos m).1 := by
  intro t ht
  exact sweep_go_post todos todos hW (m, []) t ht

/-- Auxiliary: looking up the key just set yields the new value. -/
theorem lookupStatus_setStatus_self (m : StatusMap) (k v : String) :
    lookupStatus (setStatus m k v) k = some v := by
  induction m with
  | nil => simp [setStatus, lookupStatus]
  | cons p rest ih =>
    by_cases h : p.1 == k
    · simp [setStatus, h, lookupStatus]
    · simpa [setStatus, h, lookupStatus, List.find?] using ih

/-- C8: todo status updates are idempotent in both loops.  `todo_update`
is defined identically in `run_ask_loop` and `run_edit_loop` and is
modelled once by `todoUpdateCore`, which both loop embeddings call.
An update whose status equals the last recorded status for that id is a
no-op on the status map and on the event stream, and issuing the same
non-trivial (id, status) update twice in a row emits exactly one
`todo_update` event, the second call being a no-op. -/
theorem todo_update_idempotent :
    (∀ (todos : List Todo) (m : StatusMap) (i s : String),
      lookupStatus m (pyStrip i) = some (pyStrip s) →
      todoUpdateCore todos m i s = (m, [])) ∧
    (∀ (todos : List Todo) (m : StatusMap) (i s : String),
      pyStrip i ≠ "" → pyStrip s ≠ "" → lookupStatus m (pyStrip i) ≠ some (pyStrip s) →
      (todoUpdateCore todos m i s).2.length = 1 ∧
      todoUpdateCore todos (todoUpdateCore todos m i s).1 i s =
        ((todoUpdateCore todos m i s).1, [])) := by
  constructor
  · intro todos m i s h
    unfold todoUpdateCore
    by_cases h1 : pyStrip i = "" ∨ pyStrip s = ""
    · simp [h1]
    · simp [h1, h]
  · intro todos m i s hi hs hne
    have h1 : ¬ (pyStrip i = "" ∨ pyStrip s = "") := by
      intro h; cases h with
      | inl h => exact hi h
      | inr h => exact hs h
    constructor
    · unfold todoUpdateCore
      simp [h1, hne]
    · unfold todoUpdateCore
      simp only [h1, hne, if_false, if_neg, ite_false]
      simp [h1, hne, lookupStatus_setStatus_self]

/-- Witness for C8 at a concrete fresh map. -/
theorem todo_update_idempotent_witness :
    (todoUpdateCore [] [] "t1" "done").2.length = 1 ∧
    todoUpdateCore [] (todoUpdateCore [] [] "t1" "done").1 "t1" "done" =
      ((todoUpdateCore [] [] "t1" "done").1, []) :=
  todo_update_idempotent.2 [] [] "t1" "done" (by decide) (by decide) (by decide)

/-- C6: the `relocate` recovery clears exactly the located ids, loaded
context, understanding, proposed and applied edit sets, grows the
context radius by two capped at eight (strictly increasing below the
cap), and leaves every other `EditLoopState` field, including the
iteration and attempt counters, unchanged.  In the concrete
twice-relocate scenario with default budgets the radius follows
3 → 5 → 7 and once `max_verify_attempts` is hit the run returns the
empty edit set. -/
theorem relocate_recovery_frame :
    (∀ st : EditLoop.EditLoopState,
      (EditLoop.relocateRecovery st).relevant_element_ids = [] ∧
      (EditLoop.relocateRecovery st).loaded_context = none ∧
      (EditLoop.relocateRecovery st).understanding = none ∧
      (EditLoop.relocateRecovery st).proposed_edits = none ∧
      (EditLoop.relocateRecovery st).applied_edits = none ∧
      (EditLoop.relocateRecovery st).context_size = min (st.context_size + 2) 8 ∧
      (EditLoop.relocateRecovery st).user_prompt = st.user_prompt ∧
      (EditLoop.relocateRecovery st).scene_context = st.scene_context ∧
      (EditLoop.relocateRecovery st).message_history = st.message_history ∧
      (EditLoop.relocateRecovery st).selected_element_id = st.selected_element_id ∧
      (EditLoop.relocateRecovery st).selected_text = st.selected_text ∧
      (EditLoop.relocateRecovery st).context_policy = st.context_policy ∧
      (EditLoop.relocateRecovery st).context_element_ids = st.context_element_ids ∧
      (EditLoop.relocateRecovery st).intent = st.intent ∧
      (EditLoop.relocateRecovery st).search_terms = st.search_terms ∧
      (EditLoop.relocateRecovery st).verification_result = st.verification_result ∧
      (EditLoop.relocateRecovery st).verification_issues = st.verification_issues ∧
      (EditLoop.relocateRecovery st).todos = st.todos ∧
      (EditLoop.relocateRecovery st).todo_status = st.todo_status ∧
      (EditLoop.relocateRecovery st).todos_emitted = st.todos_emitted ∧
      (EditLoop.relocateRecovery st).apply_started_emitted = st.apply_started_emitted ∧
      (EditLoop.relocateRecovery st).iterations = st.iterations ∧
      (EditLoop.relocateRecovery st).locate_attempts = st.locate_attempts ∧
      (EditLoop.relocateRecovery st).refine_attempts = st.refine_attempts ∧
      (EditLoop.relocateRecovery st).verify_attempts = st.verify_attempts ∧
      (st.context_size < 8 → st.context_size < (EditLoop.relocateRecovery st).context_size)) ∧
    (relocateScenarioRun.result = EditLoop.emptyEdits ∧
      relocateScenarioRun.state.context_size = 7 ∧
      relocateScenarioRun.state.verify_attempts =
        ({} : EditLoop.EditLoopBudgets).max_verify_attempts ∧
      (EditLoop.relocateRecovery
        { relocateScenarioState with context_size := 3 }).context_size = 5 ∧
      (EditLoop.relocateRecovery
        { relocateScenarioState with context_size := 5 }).context_size = 7) := by
  constructor
  · intro st
    refine ⟨rfl, rfl, rfl, rfl, rfl, rfl, rfl, rfl, rfl, rfl, rfl, rfl, rfl, rfl, rfl,
      rfl, rfl, rfl, rfl, rfl, rfl, rfl, rfl, rfl, rfl, ?_⟩
    intro h
    simp only [EditLoop.relocateRecovery]
    omega
  · exact ⟨rfl, rfl, rfl, rfl, rfl⟩

/-- Every successfully coerced edit entry has the canonical shape. -/
theorem coerceEditEntry_shape (e r : PyVal) (h : EditLoop.coerceEditEntry e = some r) :
    editEntryShape r = true := by
  cases e with
  | dict fs =>
    simp only [EditLoop.coerceEditEntry, Option.some.injEq] at h
    subst h
    rfl
  | pynone => simp [EditLoop.coerceEditEntry] at h
  | str s => simp [EditLoop.coerceEditEntry] at h
  | int n => simp [EditLoop.coerceEditEntry] at h
  | bool b => simp [EditLoop.coerceEditEntry] at h
  | list xs => simp [EditLoop.coerceEditEntry] at h

theorem filterMap_coerce_all (es : List PyVal) :
    (es.filterMap EditLoop.coerceEditEntry).all editEntryShape = true := by
  rw [List.all_eq_true]
  intro r hr
  rw [List.mem_filterMap] at hr
  obtain ⟨e, _, he⟩ := hr
  exact coerceEditEntry_shape e r he

/-- Every successful `_coerce_edit_response` result is a dict carrying
an `edits` list of canonical entries. -/
theorem coerceEditResponse_eq (n : Nat) (d r : PyVal)
    (h : EditLoop.coerceEditResponse n d = some r) :
    ∃ es, r = .dict [("edits", .list es)] ∧ es.all editEntryShape = true := by
  induction n generalizing d with
  | zero => simp [EditLoop.coerceEditResponse] at h
  | succ n ih =>
    cases d with
    | pynone => simp [EditLoop.coerceEditResponse] at h
    | bool b => simp [EditLoop.coerceEditResponse] at h
    | int m => simp [EditLoop.coerceEditResponse] at h
    | list xs => simp [EditLoop.coerceEditResponse] at h
    | dict fs =>
      rw [EditLoop.coerceEditResponse] at h
      by_cases ht : pyTruthy (PyVal.dict fs) = true
      · rw [if_neg (by simp [ht])] at h
        cases hg : pyGet (PyVal.dict fs) "edits" with
        | none => rw [hg] at h; simp at h
        | some v =>
          rw [hg] at h
          cases v with
          | list es =>
            refine ⟨es.filterMap EditLoop.coerceEditEntry, ?_, filterMap_coerce_all es⟩
            simp only [Option.some.injEq] at h
            exact h.symm
          | pynone => simp at h
          | str s => simp at h
          | int m => simp at h
          | bool b => simp at h
          | dict fs2 => simp at h
      · rw [if_pos (by simp_all)] at h
        exact absurd h (by simp)
    | str s =>
      rw [EditLoop.coerceEditResponse] at h
      by_cases ht : pyTruthy (PyVal.str s) = true
      · rw [if_neg (by simp [ht])] at h
        split at h
        · split at h
          · exact ih _ h
          · exact absurd h (by simp)
        · exact absurd h (by simp)
      · rw [if_pos (by simp_all)] at h
        exact absurd h (by simp)

/-- C9: the PROPOSE-phase coercion never fails to produce a canonical
`EditResponse`: for every duck-typed model result `d`, the value stored
into `state.proposed_edits` (namely `_coerce_edit_response(d) or
{"edits": []}`) is a dict with an `edits` list whose entries carry
string-valued `elementId`, `elementType`, `originalContent` and
`newContent`; malformed output (non-dict results, strings without a
JSON object, falsy values) yields exactly the empty edit set. -/
theorem propose_coercion_shape :
    (∀ d : PyVal,
      editResponseShape (pyOrVal (EditLoop.coerceResult d) EditLoop.emptyEdits) = true) ∧
    pyOrVal (EditLoop.coerceResult (.str "no json here")) EditLoop.emptyEdits =
      EditLoop.emptyEdits ∧
    pyOrVal (EditLoop.coerceResult .pynone) EditLoop.emptyEdits = EditLoop.emptyEdits ∧
    pyOrVal (EditLoop.coerceResult (.list [.int 3])) EditLoop.emptyEdits =
      EditLoop.emptyEdits := by
  refine ⟨?_, rfl, rfl, rfl⟩
  intro d
  cases hc : EditLoop.coerceResult d with
  | none => rfl
  | some r =>
    obtain ⟨es, hr, hall⟩ := coerceEditResponse_eq 2 d r hc
    subst hr
    have h1 : pyOrVal (some (PyVal.dict [("edits", PyVal.list es)])) EditLoop.emptyEdits =
        PyVal.dict [("edits", PyVal.list es)] := rfl
    have h2 : editResponseShape (PyVal.dict [("edits", PyVal.list es)]) =
        es.all editEntryShape := rfl
    rw [h1, h2]
    exact hall

/-- C5 (amended): the two-tier strict-then-salvage recovery holds for
ask_loop.py's `_safe_json_list` and `_safe_json_dict`, which coincide
with the spec-described two-tier parse on every input; edit_loop.py's
`_safe_json_dict` has no salvage tier: whenever strict parsing does not
yield an object it returns the empty dict, even if the brace-delimited
substring parses. -/
theorem safe_json_two_tier :
    (∀ text, AskLoop.safeJsonList text = specSalvageList text) ∧
    (∀ text, AskLoop.safeJsonDict text = specSalvageDict text) ∧
    (∀ text fs, pyloads text = some (.obj fs) → EditLoop.safeJsonDict text = fs) ∧
    (∀ text, (∀ fs, pyloads text ≠ some (.obj fs)) → EditLoop.safeJsonDict text = []) := by
  refine ⟨?_, ?_, ?_, ?_⟩
  · intro text
    unfold AskLoop.safeJsonList specSalvageList
    cases pyloads text with
    | none =>
      cases hs : salvageSlice text '[' ']' with
      | none => rfl
      | some sl => simp [Option.bind]
    | some v =>
      cases v <;>
        first
          | rfl
          | (cases hs : salvageSlice text '[' ']' with
             | none => rfl
             | some sl => simp [Option.bind])
  · intro text
    unfold AskLoop.safeJsonDict specSalvageDict
    cases pyloads text with
    | none =>
      cases hs : salvageSlice text '\x7b' '\x7d' with
      | none => rfl
      | some sl => simp [Option.bind]
    | some v =>
      cases v <;>
        first
          | rfl
          | (cases hs : salvageSlice text '\x7b' '\x7d' with
             | none => rfl
             | some sl => simp [Option.bind])
  · intro text fs h
    unfold EditLoop.safeJsonDict
    rw [h]
  · intro text h
    unfold EditLoop.safeJsonDict
    cases hp : pyloads text with
    | none => rfl
    | some v =>
      cases v <;> first | rfl | exact absurd hp (h _)

/-- Witness for C5 on a strict-parse success and via the general
equations at the demo text. -/
theorem safe_json_two_tier_witness :
    AskLoop.safeJsonDict salvageDemoText = specSalvageDict salvageDemoText ∧
    EditLoop.safeJsonDict "\x7b\"k\": \"v\"\x7d" = [("k", JVal.str "v")] :=
  ⟨safe_json_two_tier.2.1 salvageDemoText,
   safe_json_two_tier.2.2.1 "\x7b\"k\": \"v\"\x7d" [("k", JVal.str "v")] rfl⟩

/-- C5 counterexample: on `salvageDemoText` the strict parse fails and
the brace-delimited substring parses as a non-empty object, so the
claim requires the salvaged object to be returned — yet edit_loop.py's
`_safe_json_dict` returns the empty dict (ask_loop.py's version does
salvage it). -/
theorem edit_safe_json_no_salvage_cex :
    pyloads salvageDemoText = none ∧
    (salvageSlice salvageDemoText '\x7b' '\x7d').bind pyloads =
      some (.obj [("a", JVal.str "b")]) ∧
    EditLoop.safeJsonDict salvageDemoText = [] ∧
    AskLoop.safeJsonDict salvageDemoText = [("a", JVal.str "b")] :=
  ⟨rfl, rfl, rfl, rfl⟩

/-- Deduplication keeps a duplicate-free block that is disjoint from
`seen` as a prefix. -/
theorem dedupeAux_append_nodup (must : List String) :
    ∀ (seen l : List String), must.Nodup → (∀ m ∈ must, m ∉ seen) →
    ∃ l', dedupeAux seen (must ++ l) = must ++ l' := by
  induction must with
  | nil => exact fun seen l _ _ => ⟨dedupeAux seen l, rfl⟩
  | cons m ms ih =>
    intro seen l hnd hns
    have hm : m ∉ seen := hns m (by simp)
    obtain ⟨l', hl'⟩ := ih (m :: seen) l (List.Nodup.of_cons hnd) (by
      intro x hx
      simp only [List.mem_cons]
      push_neg
      exact ⟨fun he => (List.nodup_cons.mp hnd).1 (he ▸ hx),
        hns x (List.mem_cons_of_mem m hx)⟩)
    refine ⟨l', ?_⟩
    rw [List.cons_append, dedupeAux, if_neg hm, hl', List.cons_append]

theorem mem_take_append (m : String) (must l' : List String) (k : Nat)
    (hm : m ∈ must) (hk : must.length ≤ k) : m ∈ (must ++ l').take k := by
  rw [List.take_append_eq_append_take, List.take_of_length_le hk]
  exact List.mem_append_left _ hm

/-- Length behaviour of the final clamp in the RETRIEVE evidence
selection. -/
theorem clamp_len (minB maxB : Nat) (cand A : List String) (h : minB ≤ maxB) :
    (if (if A.length < minB then cand.take minB else A).length > maxB
      then (if A.length < minB then cand.take minB else A).take maxB
      else (if A.length < minB then cand.take minB else A)).length ≤ maxB ∧
    min minB cand.length ≤
      (if (if A.length < minB then cand.take minB else A).length > maxB
        then (if A.length < minB then cand.take minB else A).take maxB
        else (if A.length < minB then cand.take minB else A)).length := by
  split_ifs with h1 h2 h3 <;> simp only [List.length_take] at * <;> omega

/-- C3 (amended): the final chosen evidence id list always has length
at most `rerank_select_max`, and at least
`min rerank_select_min (candidate pool size)` — so the claimed interval
`[rerank_select_min, rerank_select_max]` holds exactly when the pool
holds at least `rerank_select_min` candidates (in particular for the
30-candidate pool), for every reranker output. -/
theorem rerank_clamp_bounds (b : AskLoop.AskLoopBudgets)
    (must candidateIds : List String) (sel : Option (List String))
    (h : b.rerank_select_min ≤ b.rerank_select_max) :
    (AskLoop.chooseEvidence b must candidateIds sel).length ≤ b.rerank_select_max ∧
    min b.rerank_select_min candidateIds.length ≤
      (AskLoop.chooseEvidence b must candidateIds sel).length := by
  unfold AskLoop.chooseEvidence
  dsimp only
  exact clamp_len _ _ _ _ h

/-- Witness for C3 on a 5-candidate pool with an oversized reranker
output under the default budgets. -/
theorem rerank_clamp_bounds_witness :
    (AskLoop.chooseEvidence {} [] ["a", "b", "c", "d", "e"]
        (some ["a", "b", "c", "d", "e", "f", "g"])).length ≤
      ({} : AskLoop.AskLoopBudgets).rerank_select_max ∧
    min ({} : AskLoop.AskLoopBudgets).rerank_select_min
        (["a", "b", "c", "d", "e"] : List String).length ≤
      (AskLoop.chooseEvidence {} [] ["a", "b", "c", "d", "e"]
        (some ["a", "b", "c", "d", "e", "f", "g"])).length :=
  rerank_clamp_bounds {} [] ["a", "b", "c", "d", "e"]
    (some ["a", "b", "c", "d", "e", "f", "g"]) (by decide)

/-- C3 counterexample: a non-empty single-candidate pool with the
reranker returning one id yields a chosen list of length 1, below the
default `rerank_select_min = 4`, refuting the claimed lower bound. -/
theorem rerank_clamp_cex :
    (AskLoop.chooseEvidence {} [] ["a"] (some ["a"])).length = 1 ∧
    ¬ (({} : AskLoop.AskLoopBudgets).rerank_select_min ≤
        (AskLoop.chooseEvidence {} [] ["a"] (some ["a"])).length) :=
  ⟨rfl, by decide⟩

/-- C2 (amended): when the plan-seeded must-include list (deduplicated
and capped) has at most `rerank_select_max` entries, every must-include
id survives into the final chosen evidence list, for every reranker
output; ids beyond `rerank_select_max` are truncated away by the clamp. -/
theorem must_include_preserved (b : AskLoop.AskLoopBudgets) (must rest : List String)
    (sel : Option (List String)) (hnd : must.Nodup)
    (hlen : must.length ≤ b.rerank_select_max)
    (hmm : b.rerank_select_min ≤ b.rerank_select_max)
    (h25 : b.rerank_select_max ≤ 25) :
    ∀ m ∈ must, m ∈ AskLoop.chooseEvidence b must (must ++ rest) sel := by
  intro m hm
  have hne : must ≠ [] := List.ne_nil_of_mem hm
  have hE : must.isEmpty = false := by
    cases must with
    | nil => exact absurd rfl hne
    | cons a l => rfl
  unfold AskLoop.chooseEvidence
  dsimp only
  rw [hE]
  simp only [Bool.not_false, if_pos]
  obtain ⟨l₁, h₁⟩ := dedupeAux_append_nodup must []
    (match sel with
     | some ids => if !ids.isEmpty then filterBlank ids else must ++ rest
     | none => must ++ rest) hnd (by simp)
  unfold dedupePreserveOrder
  rw [h₁]
  obtain ⟨l₂, h₂⟩ := dedupeAux_append_nodup must [] l₁ hnd (by simp)
  rw [h₂]
  have hlenA : must.length ≤ ((must ++ l₂).take 25).length := by
    simp only [List.length_take, List.length_append]
    omega
  by_cases hpad : ((must ++ l₂).take 25).length < b.rerank_select_min
  · rw [if_pos hpad]
    have hml : must.length < b.rerank_select_min := lt_of_le_of_lt hlenA hpad
    have hnotr : ¬ ((must ++ rest).take b.rerank_select_min).length > b.rerank_select_max := by
      simp only [List.length_take]
      omega
    rw [if_neg hnotr]
    exact mem_take_append m must rest b.rerank_select_min hm (le_of_lt hml)
  · rw [if_neg hpad]
    by_cases htr : ((must ++ l₂).take 25).length > b.rerank_select_max
    · rw [if_pos htr, List.take_take]
      exact mem_take_append m must l₂ _ hm (by omega)
    · rw [if_neg htr]
      exact mem_take_append m must l₂ 25 hm (by omega)

/-- Witness for C2 with two must-include ids and a divergent reranker
selection under the default budgets. -/
theorem must_include_preserved_witness :
    "m1" ∈ AskLoop.chooseEvidence {} ["m1", "m2"] (["m1", "m2"] ++ ["x"]) (some ["y"]) :=
  must_include_preserved {} ["m1", "m2"] ["x"] (some ["y"]) (by decide) (by decide)
    (by decide) (by decide) "m1" (by decide)

/-- C2 counterexample: a run whose plan supplies eleven must-include
ids (within the seeding cap of twelve) ends with `m11` missing from
`state.evidence_element_ids` under the default budgets, because after
the must-ids are re-inserted at the front the list is clamped to
`rerank_select_max = 10`. -/
theorem must_include_cex :
    askMustEnv.planObj = some askMustPlan ∧
    askMustPlan.coverage = some { must_include_element_ids := some must11 } ∧
    "m11" ∈ must11 ∧
    (AskLoop.runAskLoop askMustEnv {} askMustState).produced = true ∧
    "m11" ∉ (AskLoop.runAskLoop askMustEnv {} askMustState).state.evidence_element_ids := by
  refine ⟨rfl, rfl, by decide, rfl, by decide⟩

/-- Witness for C6 at a concrete state below the radius cap. -/
theorem relocate_recovery_frame_witness :
    relocateScenarioState.context_size < 8 ∧
    relocateScenarioState.context_size <
      (EditLoop.relocateRecovery relocateScenarioState).context_size :=
  ⟨by decide, (relocate_recovery_frame.1 relocateScenarioState).2.2.2.2.2.2.2.2.2.2.2.2.2.2.2.2.2.2.2.2.2.2.2.2.2 (by decide)⟩

/-! ### Exit-sweep invariant: strip idempotence and todo well-formedness -/

theorem dropWhile_head_not {α : Type} (p : α → Bool) :
    ∀ (l : List α) (a : α) (t : List α), List.dropWhile p l = a :: t → p a = false := by
  intro l
  induction l with
  | nil => intro a t h; simp [List.dropWhile] at h
  | cons b l ih =>
    intro a t h
    cases hpb : p b with
    | true =>
      simp only [List.dropWhile_cons, hpb, if_true] at h
      exact ih a t h
    | false =>
      simp only [List.dropWhile_cons, hpb] at h
      rw [← (List.cons.inj h).1]
      exact hpb

theorem dropWhile_self_idem {α : Type} (p : α → Bool) (l : List α) :
    List.dropWhile p (List.dropWhile p l) = List.dropWhile p l := by
  rcases hd : List.dropWhile p l with _ | ⟨a, t⟩
  · rfl
  · have := dropWhile_head_not p l a t hd
    simp [List.dropWhile_cons, this]

theorem dropWhile_is_suffix {α : Type} (p : α → Bool) :
    ∀ l : List α, ∃ u, u ++ List.dropWhile p l = l := by
  intro l
  induction l with
  | nil => exact ⟨[], rfl⟩
  | cons a l ih =>
    cases hpa : p a with
    | true =>
      obtain ⟨u, hu⟩ := ih
      exact ⟨a :: u, by simp [List.dropWhile_cons, hpa, hu]⟩
    | false => exact ⟨[], by simp [List.dropWhile_cons, hpa]⟩

theorem stripChars_idem (l : List Char) :
    ((((((l.dropWhile pyWs).reverse.dropWhile pyWs).reverse).dropWhile
        pyWs).reverse.dropWhile pyWs).reverse) =
      ((l.dropWhile pyWs).reverse.dropWhile pyWs).reverse := by
  have claim1 : List.dropWhile pyWs
      ((List.dropWhile pyWs (List.dropWhile pyWs l).reverse).reverse) =
      (List.dropWhile pyWs (List.dropWhile pyWs l).reverse).reverse := by
    rcases hB : (List.dropWhile pyWs (List.dropWhile pyWs l).reverse).reverse with _ | ⟨a, t⟩
    · rfl
    · obtain ⟨u, hu⟩ := dropWhile_is_suffix pyWs (List.dropWhile pyWs l).reverse
      have hA : List.dropWhile pyWs l =
          (List.dropWhile pyWs (List.dropWhile pyWs l).reverse).reverse ++ u.reverse := by
        have h2 := congrArg List.reverse hu
        simpa using h2.symm
      rw [hB] at hA
      have hpa : pyWs a = false :=
        dropWhile_head_not pyWs l a (t ++ u.reverse) (by rw [hA]; simp)
      simp [List.dropWhile_cons, hpa]
  rw [claim1, List.reverse_reverse, dropWhile_self_idem]

theorem pyStrip_idem (s : String) : pyStrip (pyStrip s) = pyStrip s :=
  congrArg String.mk (stripChars_idem s.toList)

theorem mem_dedupeTodos :
    ∀ (seen : List String) (l : List Todo) (t : Todo),
    t ∈ normalizePlanTodos.dedupeTodos seen l → t ∈ l ∧ t.id ≠ "" := by
  intro seen l
  induction l generalizing seen with
  | nil => intro t ht; simp [normalizePlanTodos.dedupeTodos] at ht
  | cons u l ih =>
    intro t ht
    rw [normalizePlanTodos.dedupeTodos] at ht
    by_cases hc : u.id = "" ∨ u.id ∈ seen
    · rw [if_pos hc] at ht
      obtain ⟨h1, h2⟩ := ih seen t ht
      exact ⟨List.mem_cons_of_mem _ h1, h2⟩
    · rw [if_neg hc] at ht
      rcases List.mem_cons.mp ht with he | hm
      · subst he
        exact ⟨List.mem_cons_self _ _, fun h0 => hc (Or.inl h0)⟩
      · obtain ⟨h1, h2⟩ := ih _ t hm
        exact ⟨List.mem_cons_of_mem _ h1, h2⟩

/-- Normalized plan todos are well formed whenever the fallback entries
carry stripped non-empty ids. -/
theorem normalize_WF (raw fallback : List RawTodo) (cap : Nat)
    (hf : ∀ x ∈ fallback, pyStrip x.id = x.id ∧ x.id ≠ "") :
    WFTodos (normalizePlanTodos raw fallback cap) := by
  intro t ht
  simp only [normalizePlanTodos] at ht
  have ht2 := List.take_subset _ _ ht
  obtain ⟨hmem, hne⟩ := mem_dedupeTodos [] _ t ht2
  split at hmem
  · obtain ⟨x, hx, he⟩ := List.mem_map.mp hmem
    subst he
    obtain ⟨hids, hidn⟩ := hf x hx
    exact ⟨hids, hidn, rfl⟩
  · obtain ⟨it, hit, hf2⟩ := List.mem_filterMap.mp hmem
    split at hf2
    · exact absurd hf2 (by simp)
    · rw [← Option.some.inj hf2]
      refine ⟨pyStrip_idem it.id, ?_, rfl⟩
      intro h0
      next hcond => exact hcond (Or.inl h0)

/-! ### Exit-sweep invariant: skipped-update event streams -/

theorem lastTodoAux_skip_only (tid : String) :
    ∀ (evs : List Event) (acc : Option String),
    (∀ e ∈ evs, noTodoEv e = true ∨ ∃ i l, e = Event.todoUpdate i "skipped" l) →
    lastTodoAux tid acc evs = acc ∨ lastTodoAux tid acc evs = some "skipped" := by
  intro evs
  induction evs with
  | nil => intro acc _; exact Or.inl rfl
  | cons e evs ih =>
    intro acc h
    have hrest : ∀ x ∈ evs, noTodoEv x = true ∨ ∃ i l, x = Event.todoUpdate i "skipped" l :=
      fun x hx => h x (List.mem_cons_of_mem _ hx)
    rcases h e (List.mem_cons_self _ _) with hno | ⟨i, l, rfl⟩
    · cases e with
      | todoUpdate i s l => simp [noTodoEv] at hno
      | status m => exact ih acc hrest
      | decision a => exact ih acc hrest
      | toolCall a => exact ih acc hrest
      | toolResult a => exact ih acc hrest
      | planTodos a => exact ih acc hrest
      | applyStarted a => exact ih acc hrest
      | applyDone => exact ih acc hrest
    · show lastTodoAux tid (if i = tid then some "skipped" else acc) evs = acc ∨
        lastTodoAux tid (if i = tid then some "skipped" else acc) evs = some "skipped"
      by_cases hi : i = tid
      · rw [if_pos hi]
        exact Or.inr (by rcases ih (some "skipped") hrest with h1 | h1 <;> rw [h1])
      · rw [if_neg hi]
        exact ih acc hrest

theorem lastTodoAux_mem_skip (tid : String) :
    ∀ (evs : List Event) (acc : Option String) (lb : Option String),
    (∀ e ∈ evs, noTodoEv e = true ∨ ∃ i l, e = Event.todoUpdate i "skipped" l) →
    Event.todoUpdate tid "skipped" lb ∈ evs →
    lastTodoAux tid acc evs = some "skipped" := by
  intro evs
  induction evs with
  | nil => intro acc lb _ hm; simp at hm
  | cons e evs ih =>
    intro acc lb h hm
    have hrest : ∀ x ∈ evs, noTodoEv x = true ∨ ∃ i l, x = Event.todoUpdate i "skipped" l :=
      fun x hx => h x (List.mem_cons_of_mem _ hx)
    rcases List.mem_cons.mp hm with he | hm2
    · rw [← he]
      show lastTodoAux tid (if tid = tid then some "skipped" else acc) evs = some "skipped"
      rw [if_pos rfl]
      rcases lastTodoAux_skip_only tid evs (some "skipped") hrest with h1 | h1 <;> exact h1
    · rcases h e (List.mem_cons_self _ _) with hno | ⟨i, l, rfl⟩
      · cases e with
        | todoUpdate i s l => simp [noTodoEv] at hno
        | status m => exact ih acc lb hrest hm2
        | decision a => exact ih acc lb hrest hm2
        | toolCall a => exact ih acc lb hrest hm2
        | toolResult a => exact ih acc lb hrest hm2
        | planTodos a => exact ih acc lb hrest hm2
        | applyStarted a => exact ih acc lb hrest hm2
        | applyDone => exact ih acc lb hrest hm2
      · show lastTodoAux tid (if i = tid then some "skipped" else acc) evs = some "skipped"
        exact ih _ lb hrest hm2

/-- A defaulted status other than the default and `""` was recorded. -/
theorem pyOrS_pending_eq (o : Option String) (v : String)
    (hp : v ≠ "pending") (h : pyOrS o "pending" = v) : o = some v := by
  cases o with
  | none => exact absurd ((by simpa [pyOrS] using h : ("pending" : String) = v)).symm hp
  | some s =>
    simp only [pyOrS] at h
    by_cases hs : s = ""
    · rw [if_pos hs] at h
      exact absurd h.symm hp
    · rw [if_neg hs] at h
      rw [h]

theorem budgetSweepEvents_skip_only (st : AskLoop.AskLoopState) :
    ∀ e ∈ AskLoop.budgetSweepEvents st,
      noTodoEv e = true ∨ ∃ i l, e = Event.todoUpdate i "skipped" l := by
  intro e he
  unfold AskLoop.budgetSweepEvents at he
  split at he
  · obtain ⟨t, ht, hf⟩ := List.mem_filterMap.mp he
    right
    have hf2 : (if pyStrip t.id = "" then (none : Option Event)
        else if pyOrS (lookupStatus st.todo_status (pyStrip t.id))
              (if t.status = "" then "pending" else t.status) = "done" ∨
            pyOrS (lookupStatus st.todo_status (pyStrip t.id))
              (if t.status = "" then "pending" else t.status) = "skipped" then none
        else some (Event.todoUpdate (pyStrip t.id) "skipped" (some t.label))) = some e := hf
    split at hf2
    · exact absurd hf2 (by simp)
    · split at hf2 <;> split at hf2 <;>
        first
          | exact ⟨pyStrip t.id, some t.label, (Option.some.inj hf2).symm⟩
          | exact absurd hf2 (by simp)
  · simp at he

/-- A well-formed todo not yet recorded done/skipped gets its skipped
update on the budget-exit path. -/
theorem budgetSweepEvents_covers (st : AskLoop.AskLoopState) (t : Todo)
    (ht : t ∈ st.todos) (hem : st.todos_emitted = true)
    (hid : pyStrip t.id = t.id) (hne : t.id ≠ "") (hst : t.status = "pending")
    (hcur : ¬ (pyOrS (lookupStatus st.todo_status t.id) "pending" = "done" ∨
               pyOrS (lookupStatus st.todo_status t.id) "pending" = "skipped")) :
    Event.todoUpdate t.id "skipped" (some t.label) ∈ AskLoop.budgetSweepEvents st := by
  unfold AskLoop.budgetSweepEvents
  rw [if_pos hem]
  refine List.mem_filterMap.mpr ⟨t, ht, ?_⟩
  dsimp only
  rw [hid, if_neg hne, hst]
  have hp : (if ("pending" : String) = "" then "pending" else "pending") = "pending" := by
    simp
  rw [hp, if_neg hcur]

/-! ### Exit-sweep invariant: per-phase adapters -/

theorem advances_cons_noTodo {m m' : StatusMap} {evs : List Event} (e : Event)
    (he : noTodoEv e = true) (h : Advances m evs m') : Advances m (e :: evs) m' :=
  advances_noTodo_left [e] (by simp [he]) h

theorem advances_append_noTodo {m m' : StatusMap} {a : List Event} (b : List Event)
    (hb : b.all noTodoEv = true) (h : Advances m a m') : Advances m (a ++ b) m' :=
  advances_append h (advances_noTodo m' b hb)

theorem noTodo_flatten (l : List (List Event))
    (h : ∀ x ∈ l, x.all noTodoEv = true) : l.flatten.all noTodoEv = true := by
  rw [List.all_eq_true]
  intro e he
  obtain ⟨x, hx, hex⟩ := List.mem_flatten.mp he
  exact List.all_eq_true.mp (h x hx) e hex

theorem tdU_adv (st : AskLoop.AskLoopState) (i s : String) :
    Advances st.todo_status (AskLoop.tdU st i s).2 (AskLoop.tdU st i s).1.todo_status :=
  advances_update st.todos st.todo_status i s

theorem tdSweep_adv (st : AskLoop.AskLoopState) :
    Advances st.todo_status (AskLoop.tdSweep st).2 (AskLoop.tdSweep st).1.todo_status :=
  advances_sweep st.todos st.todo_status

theorem tdSweep_swept (st : AskLoop.AskLoopState) (h : WFTodos st.todos) :
    SweptMap (AskLoop.tdSweep st).1.todos (AskLoop.tdSweep st).1.todo_status :=
  sweep_post st.todos st.todo_status h

theorem tdUE_adv (st : EditLoop.EditLoopState) (i s : String) :
    Advances st.todo_status (EditLoop.tdUE st i s).2 (EditLoop.tdUE st i s).1.todo_status :=
  advances_update st.todos st.todo_status i s

theorem tdSweepE_adv (st : EditLoop.EditLoopState) :
    Advances st.todo_status (EditLoop.tdSweepE st).2 (EditLoop.tdSweepE st).1.todo_status :=
  advances_sweep st.todos st.todo_status

theorem tdSweepE_swept (st : EditLoop.EditLoopState) (h : WFTodos st.todos) :
    SweptMap (EditLoop.tdSweepE st).1.todos (EditLoop.tdSweepE st).1.todo_status :=
  sweep_post st.todos st.todo_status h

theorem noTodo_map_flatten {α : Type} (l : List α) (f : α → List Event × List String)
    (hf : ∀ x, (f x).1.all noTodoEv = true) :
    ((l.map f).map (fun p => p.1)).flatten.all noTodoEv = true := by
  apply noTodo_flatten
  intro x hx
  obtain ⟨y, hy, hxy⟩ := List.mem_map.mp hx
  obtain ⟨z, _, hzy⟩ := List.mem_map.mp hy
  rw [← hxy, ← hzy]
  exact hf z

/-! ### Exit-sweep invariant: ask-loop phases -/

/-- Frame facts for the fallback tail: todos and the emitted flag are
untouched and the outcome is non-terminal. -/
theorem fb_frame (env : AskLoop.AskEnv) (st : AskLoop.AskLoopState) :
    (outStateA (AskLoop.retrieveFallbackTail env st).2).todos = st.todos ∧
    (outStateA (AskLoop.retrieveFallbackTail env st).2).todos_emitted = st.todos_emitted ∧
    isDoneA (AskLoop.retrieveFallbackTail env st).2 = false :=
  ⟨rfl, rfl, rfl⟩

/-- Frame facts for the grounding tail. -/
theorem gt_frame (env : AskLoop.AskEnv) (st : AskLoop.AskLoopState) :
    (outStateA (AskLoop.groundingTail env st).2).todos = st.todos ∧
    (outStateA (AskLoop.groundingTail env st).2).todos_emitted = st.todos_emitted ∧
    isDoneA (AskLoop.groundingTail env st).2 = false := by
  unfold AskLoop.groundingTail
  dsimp only
  repeat' split
  all_goals exact ⟨rfl, rfl, rfl⟩

set_option maxHeartbeats 1600000 in
/-- Frame facts for the store-backed retrieval section. -/
theorem wd_frame (env : AskLoop.AskEnv) (b : AskLoop.AskLoopBudgets)
    (st0 : AskLoop.AskLoopState) (broaden : Bool) (must variants : List String) :
    (outStateA (AskLoop.retrieveWithDb env b st0 broaden must variants).2).todos = st0.todos ∧
    (outStateA (AskLoop.retrieveWithDb env b st0 broaden must variants).2).todos_emitted =
      st0.todos_emitted ∧
    isDoneA (AskLoop.retrieveWithDb env b st0 broaden must variants).2 = false := by
  unfold AskLoop.retrieveWithDb
  dsimp only
  repeat' split
  all_goals refine ⟨?_, ?_, ?_⟩
  all_goals simp only [fb_frame, gt_frame]
  all_goals rfl

/-- Frame facts for the retrieval dispatch. -/
theorem rm_frame (env : AskLoop.AskEnv) (b : AskLoop.AskLoopBudgets)
    (st : AskLoop.AskLoopState) (broaden : Bool)
    (mustIds mustScene plannerVariants : List String) (evAcc : List Event) :
    (outStateA (AskLoop.retrieveMain env b st broaden mustIds mustScene plannerVariants
        evAcc).2).todos = st.todos ∧
    (outStateA (AskLoop.retrieveMain env b st broaden mustIds mustScene plannerVariants
        evAcc).2).todos_emitted = st.todos_emitted ∧
    isDoneA (AskLoop.retrieveMain env b st broaden mustIds mustScene plannerVariants
        evAcc).2 = false := by
  unfold AskLoop.retrieveMain
  dsimp only
  repeat' split
  all_goals refine ⟨?_, ?_, ?_⟩
  all_goals simp only [fb_frame, wd_frame]

/-- The two-entry planner fallback todos are well formed. -/
theorem askFallback_WF2 :
    ∀ x ∈ ([⟨"plan", "Understand the question"⟩,
        ⟨"answer", "Write the answer"⟩] : List RawTodo),
      pyStrip x.id = x.id ∧ x.id ≠ "" := by
  intro x hx
  rcases List.mem_cons.mp hx with rfl | hx2
  · exact ⟨rfl, by decide⟩
  rcases List.mem_cons.mp hx2 with rfl | hx3
  · exact ⟨rfl, by decide⟩
  exact absurd hx3 (by simp)

/-- The three-entry planner fallback todos are well formed. -/
theorem askFallback_WF3 :
    ∀ x ∈ ([⟨"plan", "Understand the question"⟩, ⟨"retrieve", "Retrieve evidence"⟩,
        ⟨"answer", "Write the answer"⟩] : List RawTodo),
      pyStrip x.id = x.id ∧ x.id ≠ "" := by
  intro x hx
  rcases List.mem_cons.mp hx with rfl | hx2
  · exact ⟨rfl, by decide⟩
  rcases List.mem_cons.mp hx2 with rfl | hx3
  · exact ⟨rfl, by decide⟩
  rcases List.mem_cons.mp hx3 with rfl | hx4
  · exact ⟨rfl, by decide⟩
  exact absurd hx4 (by simp)

/-- The edit-loop fallback todos are well formed. -/
theorem editFallback_WF :
    ∀ x ∈ EditLoop.editFallbackTodos, pyStrip x.id = x.id ∧ x.id ≠ "" := by
  intro x hx
  simp only [EditLoop.editFallbackTodos] at hx
  rcases List.mem_cons.mp hx with rfl | hx
  · exact ⟨rfl, by decide⟩
  rcases List.mem_cons.mp hx with rfl | hx
  · exact ⟨rfl, by decide⟩
  rcases List.mem_cons.mp hx with rfl | hx
  · exact ⟨rfl, by decide⟩
  rcases List.mem_cons.mp hx with rfl | hx
  · exact ⟨rfl, by decide⟩
  rcases List.mem_cons.mp hx with rfl | hx
  · exact ⟨rfl, by decide⟩
  rcases List.mem_cons.mp hx with rfl | hx
  · exact ⟨rfl, by decide⟩
  rcases List.mem_cons.mp hx with rfl | hx
  · exact ⟨rfl, by decide⟩
  exact absurd hx (by simp)

set_option maxHeartbeats 1600000 in
theorem retrievePhase_todo (env : AskLoop.AskEnv) (b : AskLoop.AskLoopBudgets)
    (st0 : AskLoop.AskLoopState) :
    TodoStepA st0 (AskLoop.retrievePhase env b st0) := by
  unfold AskLoop.retrievePhase
  dsimp only
  repeat' split
  all_goals refine ⟨?_, ?_, ?_⟩
  all_goals try simp only [rm_frame]
  all_goals first
    | exact fun h => h
    | exact fun hEm h0 => hEm h0
    | exact fun _ hd => Bool.noConfusion hd
    | exact fun _ => normalize_WF _ _ _ askFallback_WF2
    | exact fun _ => normalize_WF _ _ _ askFallback_WF3
    | exact fun h _ => tdSweep_swept _ h
    | exact fun _ _ => tdSweep_swept _ (normalize_WF _ _ _ askFallback_WF2)
    | exact fun _ _ => tdSweep_swept _ (normalize_WF _ _ _ askFallback_WF3)

theorem answerPhase_todo (env : AskLoop.AskEnv) (st : AskLoop.AskLoopState) :
    TodoStepA st (AskLoop.answerPhase env st) :=
  ⟨fun h => h, fun h _ => tdSweep_swept _ h, fun hEm h0 => hEm h0⟩

theorem askBody_todo (env : AskLoop.AskEnv) (b : AskLoop.AskLoopBudgets)
    (st0 : AskLoop.AskLoopState) :
    TodoStepA st0 (AskLoop.askBody env b st0) := by
  unfold AskLoop.askBody
  dsimp only
  split
  · exact ⟨fun h => (retrievePhase_todo env b _).1 h,
      fun h hd => (retrievePhase_todo env b _).2.1 h hd,
      fun h => (retrievePhase_todo env b _).2.2 h⟩
  · exact ⟨fun h => (answerPhase_todo env _).1 h,
      fun h hd => (answerPhase_todo env _).2.1 h hd,
      fun h => (answerPhase_todo env _).2.2 h⟩

/-! ### Exit-sweep invariant: edit-loop phases -/

/-- Frame facts for the LLM load-context tail. -/
theorem llt_frame (env : EditLoop.EditEnv) (st : EditLoop.EditLoopState)
    (evAcc : List Event) :
    (outStateE (EditLoop.llmLoadTail env st evAcc).2).todos = st.todos ∧
    isDoneE (EditLoop.llmLoadTail env st evAcc).2 = false :=
  ⟨rfl, rfl⟩

/-- Frame facts for LOAD_CONTEXT. -/
theorem lc_frame (env : EditLoop.EditEnv) (st : EditLoop.EditLoopState) :
    (outStateE (EditLoop.loadContextPhase env st).2).todos = st.todos ∧
    isDoneE (EditLoop.loadContextPhase env st).2 = false := by
  unfold EditLoop.loadContextPhase
  dsimp only
  repeat' split
  all_goals refine ⟨?_, ?_⟩
  all_goals try simp only [llt_frame]
  all_goals rfl

theorem planIntentPhase_todo (env : EditLoop.EditEnv) (st0 : EditLoop.EditLoopState) :
    TodoStepE st0 (EditLoop.planIntentPhase env st0) := by
  unfold EditLoop.planIntentPhase
  dsimp only
  repeat' split
  all_goals refine ⟨?_, ?_⟩
  all_goals first
    | exact fun h => h
    | exact fun _ hd => Bool.noConfusion hd
    | exact fun _ => normalize_WF _ _ _ editFallback_WF
    | exact fun h _ => tdSweepE_swept _ h
    | exact fun _ _ => tdSweepE_swept _ (normalize_WF _ _ _ editFallback_WF)

theorem locatePhase_todo (env : EditLoop.EditEnv) (st0 : EditLoop.EditLoopState) :
    TodoStepE st0 (EditLoop.locatePhase env st0) := by
  unfold EditLoop.locatePhase
  dsimp only
  repeat' split
  all_goals refine ⟨?_, ?_⟩
  all_goals first
    | exact fun h => h
    | exact fun _ hd => Bool.noConfusion hd
    | exact fun h _ => tdSweepE_swept _ h

theorem loadContextPhase_todo (env : EditLoop.EditEnv) (st : EditLoop.EditLoopState) :
    TodoStepE st (EditLoop.loadContextPhase env st) := by
  refine ⟨?_, ?_⟩
  · intro h
    rw [(lc_frame env st).1]
    exact h
  · intro _ hd
    rw [(lc_frame env st).2] at hd
    exact Bool.noConfusion hd

theorem synthesizePhase_todo (env : EditLoop.EditEnv) (st : EditLoop.EditLoopState) :
    TodoStepE st (EditLoop.synthesizePhase env st) :=
  ⟨fun h => h, fun _ hd => Bool.noConfusion hd⟩

theorem proposePhase_todo (env : EditLoop.EditEnv) (st : EditLoop.EditLoopState) :
    TodoStepE st (EditLoop.proposePhase env st) :=
  ⟨fun h => h, fun _ hd => Bool.noConfusion hd⟩

theorem refinePhase_todo (env : EditLoop.EditEnv) (st0 : EditLoop.EditLoopState) :
    TodoStepE st0 (EditLoop.refinePhase env st0) := by
  unfold EditLoop.refinePhase
  dsimp only
  repeat' split
  all_goals exact ⟨fun h => h, fun _ hd => Bool.noConfusion hd⟩

theorem verifyPhase_todo (env : EditLoop.EditEnv) (st0 : EditLoop.EditLoopState) :
    TodoStepV st0 (EditLoop.verifyPhase env st0) := by
  unfold EditLoop.verifyPhase
  dsimp only
  repeat' split
  all_goals refine ⟨?_, ?_⟩
  all_goals first
    | exact fun h => h
    | exact fun _ hd => Bool.noConfusion hd
    | exact fun h _ => tdSweepE_swept _ h

theorem finishTail_todo (st : EditLoop.EditLoopState) :
    TodoStepE st (EditLoop.finishTail st) :=
  ⟨fun h => h, fun h _ => tdSweepE_swept _ h⟩

theorem editBody_todo (env : EditLoop.EditEnv) (b : EditLoop.EditLoopBudgets)
    (st0 : EditLoop.EditLoopState) :
    TodoStepE st0 (EditLoop.editBody env b st0) := by
  unfold EditLoop.editBody
  dsimp only
  split
  · exact ⟨fun h => (planIntentPhase_todo env _).1 h,
      fun h hd => (planIntentPhase_todo env _).2 h hd⟩
  split
  · exact ⟨fun h => (locatePhase_todo env _).1 h,
      fun h hd => (locatePhase_todo env _).2 h hd⟩
  split
  · exact ⟨fun h => (loadContextPhase_todo env _).1 h,
      fun h hd => (loadContextPhase_todo env _).2 h hd⟩
  split
  · exact ⟨fun h => (synthesizePhase_todo env _).1 h,
      fun h hd => (synthesizePhase_todo env _).2 h hd⟩
  split
  · exact ⟨fun h => (proposePhase_todo env _).1 h,
      fun h hd => (proposePhase_todo env _).2 h hd⟩
  split
  · exact ⟨fun h => (refinePhase_todo env _).1 h,
      fun h hd => (refinePhase_todo env _).2 h hd⟩
  split
  · rcases hveq : EditLoop.verifyPhase env { st0 with iterations := st0.iterations + 1 }
      with ⟨evs, out⟩
    have hv := verifyPhase_todo env { st0 with iterations := st0.iterations + 1 }
    rw [hveq] at hv
    cases out with
    | next stN => exact ⟨fun h => hv.1 h, fun _ hd => Bool.noConfusion hd⟩
    | done r stN => exact ⟨fun h => hv.1 h, fun h _ => hv.2 h rfl⟩
    | pass stN =>
      exact ⟨fun h => (finishTail_todo _).1 (hv.1 h),
        fun h _ => (finishTail_todo _).2 (hv.1 h) rfl⟩
  · exact ⟨fun h => (finishTail_todo _).1 h, fun h _ => (finishTail_todo _).2 h rfl⟩

/-! ### Exit-sweep invariant: loop-level lemmas and the claim -/

theorem askLoopGo_sweep (env : AskLoop.AskEnv) (b : AskLoop.AskLoopBudgets) :
    ∀ (fuel : Nat) (st : AskLoop.AskLoopState), WFTodos st.todos →
    (st.todos_emitted = false → st.todos = []) →
    ∀ t ∈ (AskLoop.askLoopGo env b fuel st).state.todos,
      lookupStatus (AskLoop.askLoopGo env b fuel st).state.todo_status t.id = some "done" ∨
      lookupStatus (AskLoop.askLoopGo env b fuel st).state.todo_status t.id = some "skipped" ∨
      Event.todoUpdate t.id "skipped" (some t.label) ∈
        (AskLoop.askLoopGo env b fuel st).events := by
  intro fuel
  induction fuel with
  | zero =>
    intro st hWF hEm t ht
    simp only [AskLoop.askLoopGo] at ht ⊢
    obtain ⟨hid, hne, hst⟩ := hWF t ht
    by_cases hcur : pyOrS (lookupStatus st.todo_status t.id) "pending" = "done" ∨
        pyOrS (lookupStatus st.todo_status t.id) "pending" = "skipped"
    · rcases hcur with hc | hc
      · exact Or.inl (pyOrS_pending_eq _ _ (by decide) hc)
      · exact Or.inr (Or.inl (pyOrS_pending_eq _ _ (by decide) hc))
    · cases hemv : st.todos_emitted with
      | false =>
        rw [hEm hemv] at ht
        exact absurd ht (by simp)
      | true =>
        exact Or.inr (Or.inr (List.mem_cons_of_mem _
          (budgetSweepEvents_covers st t ht hemv hid hne hst hcur)))
  | succ n ih =>
    intro st hWF hEm t ht
    have hstep := askBody_todo env b st
    rcases hbq : AskLoop.askBody env b st with ⟨evs, out⟩
    rw [hbq] at hstep
    simp only [AskLoop.askLoopGo, hbq] at ht ⊢
    cases out with
    | done a st1 =>
      have hsw := hstep.2.1 hWF rfl t ht
      rcases hsw with h | h
      · exact Or.inl h
      · exact Or.inr (Or.inl h)
    | next st1 =>
      have := ih st1 (hstep.1 hWF) (hstep.2.2 hEm) t ht
      rcases this with h | h | h
      · exact Or.inl h
      · exact Or.inr (Or.inl h)
      · exact Or.inr (Or.inr (List.mem_append_right _ h))

theorem editLoopGo_sweep (env : EditLoop.EditEnv) (b : EditLoop.EditLoopBudgets) :
    ∀ (fuel : Nat) (st : EditLoop.EditLoopState), WFTodos st.todos →
    ∀ t ∈ (EditLoop.editLoopGo env b fuel st).state.todos,
      lookupStatus (EditLoop.editLoopGo env b fuel st).state.todo_status t.id = some "done" ∨
      lookupStatus (EditLoop.editLoopGo env b fuel st).state.todo_status t.id =
        some "skipped" := by
  intro fuel
  induction fuel with
  | zero =>
    intro st hWF t ht
    simp only [EditLoop.editLoopGo] at ht ⊢
    exact tdSweepE_swept st hWF t ht
  | succ n ih =>
    intro st hWF t ht
    have hstep := editBody_todo env b st
    rcases hbq : EditLoop.editBody env b st with ⟨evs, out⟩
    rw [hbq] at hstep
    simp only [EditLoop.editLoopGo, hbq] at ht ⊢
    cases out with
    | done r st1 => exact hstep.2 hWF rfl t ht
    | next st1 => exact ih st1 (hstep.1 hWF) t ht

/-- C7: on every termination path of both loops, no todo is left
`pending` or `in_progress`.  Starting either loop with the empty todo
list (as both callers do), for every todo in the final state the
recorded status is `done` or `skipped` — the edit loop's and the ask
loop's non-budget exits run `todo_finish_sweep`, and the edit loop's
budget exit does too — except on the ask loop's iteration-budget exit,
which does not update `todo_status` but emits the corresponding
`todo_update(..., "skipped")` event inline, so in every case a todo not
recorded `done`/`skipped` has its skipped `todo_update` event in the
run's event stream. -/
theorem todo_exit_sweep :
    (∀ (env : AskLoop.AskEnv) (b : AskLoop.AskLoopBudgets) (st : AskLoop.AskLoopState),
      st.todos = [] →
      ∀ t ∈ (AskLoop.runAskLoop env b st).state.todos,
        lookupStatus (AskLoop.runAskLoop env b st).state.todo_status t.id = some "done" ∨
        lookupStatus (AskLoop.runAskLoop env b st).state.todo_status t.id = some "skipped" ∨
        Event.todoUpdate t.id "skipped" (some t.label) ∈
          (AskLoop.runAskLoop env b st).events) ∧
    (∀ (env : EditLoop.EditEnv) (b : EditLoop.EditLoopBudgets) (st : EditLoop.EditLoopState),
      st.todos = [] →
      ∀ t ∈ (EditLoop.runEditLoop env b st).state.todos,
        lookupStatus (EditLoop.runEditLoop env b st).state.todo_status t.id = some "done" ∨
        lookupStatus (EditLoop.runEditLoop env b st).state.todo_status t.id =
          some "skipped") := by
  constructor
  · intro env b st h0 t ht
    have hWF : WFTodos st.todos := by
      rw [h0]
      intro x hx
      exact absurd hx (by simp)
    have := askLoopGo_sweep env b (b.max_iterations - st.iterations) st hWF (fun _ => h0) t ht
    rcases this with h | h | h
    · exact Or.inl h
    · exact Or.inr (Or.inl h)
    · exact Or.inr (Or.inr (List.mem_append_right _ h))
  · intro env b st h0 t ht
    have hWF : WFTodos st.todos := by
      rw [h0]
      intro x hx
      exact absurd hx (by simp)
    exact editLoopGo_sweep env b (b.max_iterations - st.iterations) st hWF t ht

/-- Witness for C7: the must-include ask scenario ends with the
planner-fallback todos all recorded `done`/`skipped`, and the
twice-relocating edit scenario likewise. -/
theorem todo_exit_sweep_witness :
    (lookupStatus (AskLoop.runAskLoop askMustEnv {} askMustState).state.todo_status "plan" =
        some "done" ∨
      lookupStatus (AskLoop.runAskLoop askMustEnv {} askMustState).state.todo_status "plan" =
        some "skipped" ∨
      Event.todoUpdate "plan" "skipped" (some "Understand the question") ∈
        (AskLoop.runAskLoop askMustEnv {} askMustState).events) ∧
    (lookupStatus (EditLoop.runEditLoop relocateScenarioEnv {}
          relocateScenarioState).state.todo_status "plan_intent" = some "done" ∨
      lookupStatus (EditLoop.runEditLoop relocateScenarioEnv {}
          relocateScenarioState).state.todo_status "plan_intent" = some "skipped") :=
  ⟨todo_exit_sweep.1 askMustEnv {} askMustState rfl
      ⟨"plan", "Understand the question", "pending"⟩ (by decide),
   todo_exit_sweep.2 relocateScenarioEnv {} relocateScenarioState rfl
      ⟨"plan_intent", "Understand edit intent", "pending"⟩ (by decide)⟩

end Coverage
